import Mathlib

/-!
# osgPPU: the in/out processing unit

A shallow embedding of `src/osgPPU/UnitInOut.cpp`: the output render target of a
unit, its (re)allocation, the per-level mipmap sub-pass table and the render
entry points.  Objects reached through `osg::ref_ptr` are `Option` values, a
dereference of a null pointer and an out-of-range `std::vector` access make the
embedded function return `none`.  The OpenGL side effects of a draw are recorded
as a list of commands.
-/

namespace OsgPPU

/-! ## Data model -/

/-- Texture filter modes of `osg::Texture::FilterMode`. -/
inductive FilterMode where
  | LINEAR
  | LINEAR_MIPMAP_LINEAR
  | LINEAR_MIPMAP_NEAREST
  | NEAREST
  | NEAREST_MIPMAP_LINEAR
  | NEAREST_MIPMAP_NEAREST
deriving DecidableEq

/-- Texture wrap modes of `osg::Texture::WrapMode`. -/
inductive WrapMode where
  | CLAMP
  | CLAMP_TO_EDGE
  | CLAMP_TO_BORDER
  | REPEAT
  | MIRROR
deriving DecidableEq

/-- An `osg::Texture` object.  `id` is the identity of the object (two
references are the same object when their `id` agrees); `is2D` tells whether
`dynamic_cast<osg::Texture2D*>` succeeds on it.  The remaining fields are the
attributes that `UnitInOut` reads or writes. -/
structure Texture where
  id : Nat
  is2D : Bool
  textureWidth : Int
  textureHeight : Int
  internalFormat : Int
  sourceFormat : Int
  minFilter : FilterMode
  magFilter : FilterMode
  wrapS : WrapMode
  wrapT : WrapMode
  resizeNonPowerOfTwoHint : Bool
deriving DecidableEq

/-- An `osg::Viewport` rectangle.  OSG stores the four values in floating point;
the units only store integral values, which is what the embedding keeps. -/
structure Viewport where
  x : Int
  y : Int
  width : Int
  height : Int
deriving DecidableEq

/-- An `osg::FrameBufferAttachment` of a 2D texture: the attached texture object
(by identity) and the mip level it is attached at. -/
structure FrameBufferAttachment where
  texture : Nat
  level : Nat
deriving DecidableEq

/-- The GL enumerant `GL_COLOR_ATTACHMENT0_EXT`. -/
def GL_COLOR_ATTACHMENT0_EXT : Nat := 0x8CE0

/-- Insertion into an attachment map (a `std::map` keyed by the attachment
point, kept in key order): an existing binding of the key is overwritten. -/
def insertAttachment (k : Nat) (a : FrameBufferAttachment) :
    List (Nat × FrameBufferAttachment) → List (Nat × FrameBufferAttachment)
  | [] => [(k, a)]
  | (k', a') :: rest =>
    if k < k' then (k, a) :: (k', a') :: rest
    else if k = k' then (k, a) :: rest
    else (k', a') :: insertAttachment k a rest

/-- Lookup in an attachment map. -/
def lookupAttachment (k : Nat) :
    List (Nat × FrameBufferAttachment) → Option FrameBufferAttachment
  | [] => none
  | (k', a') :: rest => if k = k' then some a' else lookupAttachment k rest

/-- An `osg::FrameBufferObject`: its attachment map. -/
structure FrameBufferObject where
  attachments : List (Nat × FrameBufferAttachment)
deriving DecidableEq

/-- The method `osg::FrameBufferObject::setAttachment`. -/
def FrameBufferObject.setAttachment (fbo : FrameBufferObject) (k : Nat)
    (a : FrameBufferAttachment) : FrameBufferObject :=
  { attachments := insertAttachment k a fbo.attachments }

/-- The attachment bound at an attachment point, if any. -/
def FrameBufferObject.getAttachment (fbo : FrameBufferObject) (k : Nat) :
    Option FrameBufferAttachment :=
  lookupAttachment k fbo.attachments

/-- A texture map `std::map<int, osg::ref_ptr<osg::Texture> >`, in key order.
A slot holding `none` is a null `ref_ptr`. -/
abbrev TextureMap := List (Int × Option Texture)

/-- Functions the unit calls that live outside `UnitInOut.cpp`.

* `floorLog2 m` is the value of the floating-point expression
  `(int)floor(log((float)m)/(float)M_LN2)`.  It is evaluated by the C library
  and its value at (and near) powers of two depends on the precision and
  rounding of `log`, so it is kept as a parameter.  Two properties are used:
  the logarithm of an argument `>= 1` is not negative, and the argument of
  `log` is a finite `float`, hence below `2^128`, so that the quotient cannot
  exceed `128`.
* `createSourceTextureFormat` is `Processor::createSourceTextureFormat`. -/
structure Platform where
  floorLog2 : Int → Int
  floorLog2_nonneg : ∀ m : Int, 1 ≤ m → 0 ≤ floorLog2 m
  floorLog2_le : ∀ m : Int, floorLog2 m ≤ 128
  createSourceTextureFormat : Int → Int

/-- The state of a `UnitInOut` object (the members of `Unit` and `UnitInOut`
that the embedded functions touch).

* `sStateValid` is `sState.getState() != NULL` for the shared render info.
* `mShader` is the handle of the unit's shader, if it has one.
* `mbUseBlendMode`, `mbOfflinePPU` are the values of `useBlendMode()` and
  `getOfflineMode()`.
* `texturesCreated` counts the `new osg::Texture2D()` executed so far; it names
  the next texture object. -/
structure UnitInOut where
  mFBO : Option FrameBufferObject
  mViewport : Option Viewport
  mOutputTex : TextureMap
  mInputTex : TextureMap
  mOutputInternalFormat : Int
  mbDirtyOutputTextures : Bool
  mbMipmappedIO : Bool
  mNumLevels : Int
  mIOMipmapViewport : List Viewport
  mIOMipmapFBO : List FrameBufferObject
  mMipmapViewport : List Viewport
  mMipmapFBO : List FrameBufferObject
  mShader : Option Nat
  mbUseBlendMode : Bool
  mbOfflinePPU : Bool
  sStateValid : Bool
  texturesCreated : Nat
deriving DecidableEq

/-! ## Floating-point helpers -/

/-- The constant `(float)M_LN2`: `M_LN2 = 0.693147180559945...` rounded to
single precision, `11629080 * 2^-24 = 0.693147182464599...`. -/
def ln2f : ℚ := 11629080 / 16777216

/-- Binary logarithm by repeated halving, at most `fuel` times. -/
def log2Fuel : Nat → Nat → Nat
  | 0, _ => 0
  | fuel + 1, n => if n < 2 then 0 else 1 + log2Fuel fuel (n / 2)

/-- The position of the leading bit of `n`, that is `floor(log2 n)` for
`n >= 1` (and `0` for `n = 0`). -/
def ilog2 (n : Nat) : Nat := log2Fuel n n

/-- Conversion `float(n)` of an `int` to IEEE single precision (24 significant
bits, round to nearest, ties to even), as the integer it denotes. -/
def f32 (n : Int) : Int :=
  let a := n.natAbs
  if a < 2 ^ 24 then n
  else
    let e := ilog2 a - 23
    let q := a / 2 ^ e
    let r := a % 2 ^ e
    let half := 2 ^ (e - 1)
    let q' := if half < r ∨ (r = half ∧ q % 2 = 1) then q + 1 else q
    Int.sign n * ((q' * 2 ^ e : Nat) : Int)

/-- The size of one side of the viewport of a mipmap level:
`std::max(1, (int)floor(float(dim) / float(pow(2.0f, (float)level))))`.
The power of two and the quotient by it are exact in floating point, so the
only rounding is that of `float(dim)`. -/
def levelDim (dim : Int) (level : Nat) : Int :=
  max 1 (f32 dim / 2 ^ level)

/-! ## checkIOMipmappedData -/

/-- The expression `dynamic_cast<osg::Texture2D*>(it->second.get())`: null for a
null slot and for a texture that is not a `Texture2D`. -/
def dynCastTexture2D : Option Texture → Option Texture
  | some t => if t.is2D then some t else none
  | none => none

/-- How a loop body that may `return` from the enclosing function ends. -/
inductive Flow (α : Type) where
  | next (a : α)
  | ret
  | fault
deriving DecidableEq

/-- The inner loop of `checkIOMipmappedData` (lines 166-185): attach every
output texture to the render target of one level.  `ret` is the early `return`
on a dimension mismatch, `fault` the dereference of a null `output`. -/
def attachLevel (width height : Int) (level : Nat) :
    TextureMap → Nat → FrameBufferObject → Flow FrameBufferObject
  | [], _, fbo => Flow.next fbo
  | (_, slot) :: rest, mrt, fbo =>
    match dynCastTexture2D slot with
    | none => Flow.fault
    | some output =>
      if output.textureWidth ≠ width ∨ output.textureHeight ≠ height then Flow.ret
      else
        attachLevel width height level rest (mrt + 1)
          (fbo.setAttachment (GL_COLOR_ATTACHMENT0_EXT + mrt) ⟨output.id, level⟩)

/-- The loop over the mipmap levels of `checkIOMipmappedData` (lines 153-189),
entered at `level` with `remaining` iterations to go. -/
def buildLevels (width height : Int) :
    (remaining : Nat) → (level : Nat) → UnitInOut → Option UnitInOut
  | 0, _, u => some u
  | n + 1, level, u =>
    let vp : Viewport := ⟨0, 0, levelDim width level, levelDim height level⟩
    let u1 := { u with mIOMipmapViewport := u.mIOMipmapViewport ++ [vp] }
    match attachLevel width height level u.mOutputTex 0 ⟨[]⟩ with
    | Flow.fault => none
    | Flow.ret => some u1
    | Flow.next fbo =>
      buildLevels width height n (level + 1)
        { u1 with mIOMipmapFBO := u1.mIOMipmapFBO ++ [fbo] }

/-- The method `UnitInOut::checkIOMipmappedData` (lines 135-191). -/
def checkIOMipmappedData (P : Platform) (u : UnitInOut) : Option UnitInOut :=
  if u.mFBO.isSome ∧ u.mOutputTex.length > 0 ∧ UnitInOut.mbMipmappedIO u = true then
    match u.mOutputTex with
    | [] => some u
    | (_, none) :: _ => some u
    | (_, some first) :: _ =>
      let width := first.textureWidth
      let height := first.textureHeight
      let numLevels := 1 + P.floorLog2 (max width height)
      buildLevels width height numLevels.toNat 0
        { u with mIOMipmapViewport := [], mIOMipmapFBO := [], mNumLevels := numLevels }
  else some u

/-! ## assignOutputTexture -/

/-- Lookup of a key in a texture map; a missing key and a null slot both give
`none`. -/
def lookupTexture (index : Int) : TextureMap → Option Texture
  | [] => none
  | (k, slot) :: rest => if k = index then slot else lookupTexture index rest

/-- Modelled from the spec: `Unit::getInputTexture` is declared in `Unit.h`,
which is not among the sources; it yields the texture bound at the given input
slot, or null ("Filter mode: nearest if input texture 0 uses nearest, else
linear"). -/
def getInputTexture (u : UnitInOut) (index : Int) : Option Texture :=
  lookupTexture index u.mInputTex

/-- The filter chosen for a new output texture (lines 104-112): nearest when
input texture 0 exists and uses nearest for that filter, linear otherwise. -/
def inheritedFilter (input0 : Option Texture) (get : Texture → FilterMode) : FilterMode :=
  match input0 with
  | some t => if get t = FilterMode.NEAREST then FilterMode.NEAREST else FilterMode.LINEAR
  | none => FilterMode.LINEAR

/-- The texture object built at lines 91-112 of `assignOutputTexture`, as object
number `id`. -/
def newOutputTexture (P : Platform) (u : UnitInOut) (vp : Viewport) (id : Nat) : Texture :=
  { id := id
    is2D := true
    textureWidth := vp.width
    textureHeight := vp.height
    resizeNonPowerOfTwoHint := false
    wrapS := WrapMode.CLAMP
    wrapT := WrapMode.CLAMP
    internalFormat := u.mOutputInternalFormat
    sourceFormat := P.createSourceTextureFormat u.mOutputInternalFormat
    minFilter := inheritedFilter (getInputTexture u 0) Texture.minFilter
    magFilter := inheritedFilter (getInputTexture u 0) Texture.magFilter }

/-- The loop of `assignOutputTexture` over the output map (lines 84-120), at
iteration `i`, with the render target `fbo` and `created` textures made so far.
It returns the updated map, render target and creation count; `none` is the
dereference of a null `mViewport`. -/
def assignLoop (P : Platform) (u : UnitInOut) :
    TextureMap → Nat → FrameBufferObject → Nat →
      Option (TextureMap × FrameBufferObject × Nat)
  | [], _, fbo, created => some ([], fbo, created)
  | (k, slot) :: rest, i, fbo, created =>
    match dynCastTexture2D slot with
    | some mTex =>
      match assignLoop P u rest (i + 1)
          (fbo.setAttachment (GL_COLOR_ATTACHMENT0_EXT + i) ⟨mTex.id, 0⟩) created with
      | none => none
      | some (outs, fbo', created') => some ((k, slot) :: outs, fbo', created')
    | none =>
      match u.mViewport with
      | none => none
      | some vp =>
        let mTex := newOutputTexture P u vp created
        match assignLoop P u rest (i + 1)
            (fbo.setAttachment (GL_COLOR_ATTACHMENT0_EXT + i) ⟨mTex.id, 0⟩) (created + 1) with
        | none => none
        | some (outs, fbo', created') => some ((k, some mTex) :: outs, fbo', created')

/-- The method `UnitInOut::assignOutputTexture` (lines 79-131). -/
def assignOutputTexture (P : Platform) (u : UnitInOut) : Option UnitInOut :=
  match u.mFBO with
  | some fbo =>
    match assignLoop P u u.mOutputTex 0 fbo u.texturesCreated with
    | none => none
    | some (outs, fbo', created) =>
      let u1 := { u with
        mOutputTex := outs, mFBO := some fbo', texturesCreated := created,
        mMipmapFBO := [], mMipmapViewport := [] }
      match checkIOMipmappedData P u1 with
      | none => none
      | some u2 => some { u2 with mbDirtyOutputTextures := false }
  | none => some { u with mbDirtyOutputTextures := false }

/-! ## render -/

/-- The alpha passed to `glColor4f(1,1,1,alpha)`: the constant 1 or the value of
`getCurrentBlendValue()`. -/
inductive Alpha where
  | one
  | currentBlendValue
deriving DecidableEq

/-- The effects of `doRender` on the shader and on the GL state, in program
order.  The value of `shaderSet` is a `float`; the three uniforms that
`doRender` sets are conversions of integers, and the integer that the `float`
denotes is recorded. -/
inductive GLCommand where
  | shaderSet (shader : Nat) (name : String) (value : Int)
  | shaderUpdate (shader : Nat)
  | applyStateSet
  | applyFBO (fbo : FrameBufferObject)
  | applyViewport (vp : Viewport)
  | glEnableBlend
  | glDisableBlend
  | glColor4f (alpha : Alpha)
  | drawScreenQuad
deriving DecidableEq

/-- The method `UnitInOut::doRender` (lines 241-285): the commands it issues.
It changes no member of the unit. -/
def doRender (u : UnitInOut) (mipmapLevel : Int) : List GLCommand :=
  if ¬ u.sStateValid then []
  else
    match u.mFBO, u.mViewport with
    | some fbo, some vp =>
      let mipmapLevel := if mipmapLevel < 0 then 0 else mipmapLevel
      (match u.mShader with
        | some sh =>
          [GLCommand.shaderSet sh "g_ViewportWidth" (f32 vp.width),
           GLCommand.shaderSet sh "g_ViewportHeight" (f32 vp.height),
           GLCommand.shaderSet sh "g_MipmapLevel" (f32 mipmapLevel),
           GLCommand.shaderUpdate sh]
        | none => [])
      ++ [GLCommand.applyStateSet, GLCommand.applyFBO fbo, GLCommand.applyViewport vp]
      ++ (if u.mbUseBlendMode ∧ u.mbOfflinePPU = false then
            [GLCommand.glEnableBlend, GLCommand.glColor4f Alpha.currentBlendValue,
             GLCommand.drawScreenQuad, GLCommand.glDisableBlend,
             GLCommand.glColor4f Alpha.one]
          else
            [GLCommand.glDisableBlend, GLCommand.glColor4f Alpha.one,
             GLCommand.drawScreenQuad, GLCommand.glColor4f Alpha.one])
    | _, _ => []

/-- The loop of `render` over the mipmap levels (lines 212-220), at level `i`
with `remaining` iterations to go; `cur` is the unit and `tr` the commands
issued so far.  `none` is an access past the end of a table. -/
def renderLevels :
    (remaining : Nat) → (i : Nat) → UnitInOut → List GLCommand →
      Option (UnitInOut × List GLCommand)
  | 0, _, cur, tr => some (cur, tr)
  | n + 1, i, cur, tr =>
    match cur.mIOMipmapViewport[i]?, cur.mIOMipmapFBO[i]? with
    | some vp, some fbo =>
      let cur1 := { cur with mViewport := some vp, mFBO := some fbo }
      renderLevels n (i + 1) cur1 (tr ++ doRender cur1 i)
    | _, _ => none

/-- The method `UnitInOut::render` (lines 195-230): the unit after the call and
the commands issued. -/
def render (u : UnitInOut) (mipmapLevel : Int) : Option (UnitInOut × List GLCommand) :=
  if mipmapLevel ≥ 0 then some (u, doRender u mipmapLevel)
  else if UnitInOut.mbMipmappedIO u = true then
    let currentViewport := u.mViewport
    let currentFBO := u.mFBO
    match renderLevels u.mNumLevels.toNat 0 u [] with
    | none => none
    | some (u1, tr) => some ({ u1 with mFBO := currentFBO, mViewport := currentViewport }, tr)
  else some (u, doRender u mipmapLevel)

/-- One draw pass as section 4.3 of the specification describes it, for a
given render target, viewport and level: refresh the per-draw uniforms of the
shader, if the unit has one (viewport width and height, mip level index, each
as a `float`), bind state set, render target and viewport, then draw the
full-screen quad, with
blending (alpha = the blend value) only if the unit declares a blend mode and
is not in offline mode, otherwise with blending disabled and the colour forced
to opaque white before and after the draw.  `doRender` is compared with it. -/
def drawPass (u : UnitInOut) (fbo : FrameBufferObject) (vp : Viewport) (level : Int) :
    List GLCommand :=
  (match u.mShader with
    | some sh =>
      [GLCommand.shaderSet sh "g_ViewportWidth" (f32 vp.width),
       GLCommand.shaderSet sh "g_ViewportHeight" (f32 vp.height),
       GLCommand.shaderSet sh "g_MipmapLevel" (f32 level),
       GLCommand.shaderUpdate sh]
    | none => [])
  ++ [GLCommand.applyStateSet, GLCommand.applyFBO fbo, GLCommand.applyViewport vp]
  ++ (if u.mbUseBlendMode ∧ u.mbOfflinePPU = false then
        [GLCommand.glEnableBlend, GLCommand.glColor4f Alpha.currentBlendValue,
         GLCommand.drawScreenQuad, GLCommand.glDisableBlend,
         GLCommand.glColor4f Alpha.one]
      else
        [GLCommand.glDisableBlend, GLCommand.glColor4f Alpha.one,
         GLCommand.drawScreenQuad, GLCommand.glColor4f Alpha.one])

/-- The number of draws of the screen quad among a list of commands. -/
def drawCount (tr : List GLCommand) : Nat :=
  tr.count GLCommand.drawScreenQuad

/-- The identities of the texture objects held by a texture map, in slot
order. -/
def outputIds (outs : TextureMap) : List Nat :=
  outs.filterMap fun p => p.2.map Texture.id

/-- The render target of mipmap level `level` for the texture objects `ids`:
the i-th texture is attached at colour attachment `i`, at mip level `level`. -/
def levelFBO (ids : List Nat) (level : Nat) : FrameBufferObject :=
  { attachments :=
      (List.enumFrom 0 ids).map fun p =>
        (GL_COLOR_ATTACHMENT0_EXT + p.1, (⟨p.2, level⟩ : FrameBufferAttachment)) }

/-- Every slot of a texture map holds a 2D texture of size `w x h`. -/
def AllOutputs (w h : Int) (outs : TextureMap) : Prop :=
  ∀ p ∈ outs, ∃ t : Texture,
    p.2 = some t ∧ t.is2D = true ∧ t.textureWidth = w ∧ t.textureHeight = h

/-- The viewport of mipmap level `level` for base size `w x h`. -/
def levelViewport (w h : Int) (level : Nat) : Viewport :=
  ⟨0, 0, levelDim w level, levelDim h level⟩

/-! ## Auxiliary definitions for the statements -/

/-- Every slot of a texture map holds a 2D texture. -/
def All2D (outs : TextureMap) : Prop :=
  ∀ p ∈ outs, ∃ t : Texture, p.2 = some t ∧ t.is2D = true

/-- Some slot of a texture map holds a texture whose size is not `w x h`. -/
def SomeOtherSize (w h : Int) (outs : TextureMap) : Prop :=
  ∃ p ∈ outs, ∃ t : Texture, p.2 = some t ∧ (t.textureWidth ≠ w ∨ t.textureHeight ≠ h)

/-- A natural number that single precision represents exactly: at most 24
significant bits. -/
def Rep24 (x : Nat) : Prop := ∃ q k : Nat, q ≤ 2 ^ 24 ∧ x = q * 2 ^ k

/-- The draw pass of mipmap level `i`, taken from the sub-pass table of the
unit: the viewport and render target stored for the level, level index `i`. -/
def levelPass (u : UnitInOut) (i : Nat) : List GLCommand :=
  match u.mIOMipmapViewport[i]?, u.mIOMipmapFBO[i]? with
  | some vp, some fbo => drawPass u fbo vp i
  | _, _ => []

/-- The tables built by the loop over the mipmap levels, as a function of the
output map alone: `buildLevels` without the unit around it (used in proofs). -/
def levelTables (width height : Int) (outs : TextureMap) :
    Nat → Nat → List Viewport → List FrameBufferObject →
      Option (List Viewport × List FrameBufferObject)
  | 0, _, vps, fbos => some (vps, fbos)
  | n + 1, level, vps, fbos =>
    match attachLevel width height level outs 0 ⟨[]⟩ with
    | Flow.fault => none
    | Flow.ret => some (vps ++ [levelViewport width height level], fbos)
    | Flow.next fbo =>
      levelTables width height outs n (level + 1)
        (vps ++ [levelViewport width height level]) (fbos ++ [fbo])

/-- The render target after attaching the texture objects `ids`, in order, at
the colour attachments `i`, `i + 1`, ... (mip level 0). -/
def attachIds : List Nat → Nat → FrameBufferObject → FrameBufferObject
  | [], _, fbo => fbo
  | id :: rest, i, fbo =>
    attachIds rest (i + 1) (fbo.setAttachment (GL_COLOR_ATTACHMENT0_EXT + i) ⟨id, 0⟩)

/-! ## Sample data -/

/-- A platform whose floating-point logarithm is exact (capped at `128`, the
bound that the range of `float` puts on the quotient). -/
def exactPlatform : Platform where
  floorLog2 := fun m => ((min (ilog2 m.toNat) 128 : Nat) : Int)
  floorLog2_nonneg := fun _ _ => Int.natCast_nonneg _
  floorLog2_le := fun m => Int.ofNat_le.2 (Nat.min_le_right (ilog2 m.toNat) 128)
  createSourceTextureFormat := fun f => if f = 0x881A then 0x1908 else f

/-- A platform on which `log` is evaluated in double precision, for arguments
in the range of `int`: the quotient by `(float)M_LN2`, which is larger than
`ln 2`, falls short of `k` at the argument `2^k` (`k >= 1`), so that the floor
is `k - 1` there; at any other argument it is the floor of the binary
logarithm. -/
def doubleLogPlatform : Platform where
  floorLog2 := fun m =>
    let k := min (ilog2 (f32 m).toNat) 128
    if (f32 m).toNat = 2 ^ k ∧ 1 ≤ k then ((k - 1 : Nat) : Int) else (k : Int)
  floorLog2_nonneg := fun _ _ => by
    simp only
    split <;> exact Int.natCast_nonneg _
  floorLog2_le := fun m => by
    simp only
    split <;> omega
  createSourceTextureFormat := fun f => if f = 0x881A then 0x1908 else f

/-- A platform that agrees with `exactPlatform` except at the argument
`2^24 - 1`, where it has the value that a `log` evaluated in single precision
gives: the `float` nearest to `log(16777215)` is `24 * (float)M_LN2`, and the
quotient is `24`. -/
def singleLogPlatform : Platform where
  floorLog2 := fun m => if m = 16777215 then 24 else exactPlatform.floorLog2 m
  floorLog2_nonneg := fun m h => by
    simp only
    split
    · decide
    · exact exactPlatform.floorLog2_nonneg m h
  floorLog2_le := fun m => by
    simp only
    split
    · decide
    · exact exactPlatform.floorLog2_le m
  createSourceTextureFormat := exactPlatform.createSourceTextureFormat

/-- A 2D texture object of the given identity and size. -/
def sampleTexture (id : Nat) (w h : Int) : Texture :=
  { id := id, is2D := true, textureWidth := w, textureHeight := h,
    internalFormat := 0x881A, sourceFormat := 0x1908,
    minFilter := FilterMode.LINEAR, magFilter := FilterMode.LINEAR,
    wrapS := WrapMode.CLAMP, wrapT := WrapMode.CLAMP, resizeNonPowerOfTwoHint := false }

/-- A unit with a valid, empty render target, a `4 x 4` viewport, a valid
graphics state and no output slot. -/
def sampleUnit : UnitInOut :=
  { mFBO := some ⟨[]⟩, mViewport := some ⟨0, 0, 4, 4⟩, mOutputTex := [], mInputTex := [],
    mOutputInternalFormat := 0x881A, mbDirtyOutputTextures := false,
    mbMipmappedIO := false, mNumLevels := 0, mIOMipmapViewport := [], mIOMipmapFBO := [],
    mMipmapViewport := [], mMipmapFBO := [], mShader := some 7, mbUseBlendMode := false,
    mbOfflinePPU := false, sStateValid := true, texturesCreated := 0 }

/-- A unit in mipmap mode with two outputs of `256 x 256`. -/
def mipmapUnit256 : UnitInOut :=
  { sampleUnit with
    mbMipmappedIO := true
    mOutputTex := [(0, some (sampleTexture 10 256 256)), (1, some (sampleTexture 11 256 256))] }

/-- A unit in mipmap mode with one output of `16777217 x 1`. -/
def wideUnit : UnitInOut :=
  { sampleUnit with
    mbMipmappedIO := true
    mOutputTex := [(0, some (sampleTexture 10 16777217 1))] }

/-- A unit in mipmap mode with one output of `16777215 x 1`. -/
def mipmapUnit16M : UnitInOut :=
  { sampleUnit with
    mbMipmappedIO := true
    mOutputTex := [(0, some (sampleTexture 10 16777215 1))] }

/-- A unit in mipmap mode with outputs of `256 x 256` and `128 x 128`. -/
def mismatchUnit : UnitInOut :=
  { sampleUnit with
    mbMipmappedIO := true
    mOutputTex := [(0, some (sampleTexture 10 256 256)), (1, some (sampleTexture 11 128 128))] }

/-- A unit with a `128 x 128` viewport, output format `GL_RGBA16F_ARB` and one
output slot that holds no texture yet. -/
def nullSlotUnit : UnitInOut :=
  { sampleUnit with
    mViewport := some ⟨0, 0, 128, 128⟩
    mOutputTex := [(0, none)] }

/-- A unit with a `4 x 4` viewport whose output map has the keys `3` and `7`:
a `4 x 4` texture at key `3` and an empty slot at key `7`. -/
def sparseKeyUnit : UnitInOut :=
  { sampleUnit with
    mOutputTex := [(3, some (sampleTexture 10 4 4)), (7, none)] }

/-- A unit in mipmap mode with a `4 x 4` viewport, an empty first output slot
and a `4 x 4` texture in the second. -/
def mipmapUnit4 : UnitInOut :=
  { sampleUnit with
    mbMipmappedIO := true
    mOutputTex := [(0, none), (1, some (sampleTexture 11 4 4))] }

/-- The unit `mipmapUnit4` after `assignOutputTexture`. -/
def mipmapReady4 : UnitInOut :=
  { mipmapUnit4 with
    mFBO := some ⟨[(GL_COLOR_ATTACHMENT0_EXT, ⟨0, 0⟩), (GL_COLOR_ATTACHMENT0_EXT + 1, ⟨11, 0⟩)]⟩
    mOutputTex := [(0, some (sampleTexture 0 4 4)), (1, some (sampleTexture 11 4 4))]
    mNumLevels := 3
    mIOMipmapViewport := [⟨0, 0, 4, 4⟩, ⟨0, 0, 2, 2⟩, ⟨0, 0, 1, 1⟩]
    mIOMipmapFBO := [levelFBO [0, 11] 0, levelFBO [0, 11] 1, levelFBO [0, 11] 2]
    texturesCreated := 1 }

/-! ## The other operations of the in/out unit -/

/-- Methods of the base class `Unit` that `UnitInOut` calls and whose code is
not among the sources: `enableMipmapGeneration()` and `initializeBase()`, as
functions on the unit.  They are code of `Unit`, so they cannot reach the
members that `UnitInOut` declares for itself (the mipmapped in/out flag, the
level count and the two per-level tables); `enableMipmapGeneration` prepares the
output textures for mipmaps and leaves the render target alone. -/
structure UnitBase where
  enableMipmapGeneration : UnitInOut → UnitInOut
  initializeBase : UnitInOut → UnitInOut
  enable_mFBO : ∀ u, (enableMipmapGeneration u).mFBO = u.mFBO
  enable_own : ∀ u,
    UnitInOut.mbMipmappedIO (enableMipmapGeneration u) = UnitInOut.mbMipmappedIO u ∧
    (enableMipmapGeneration u).mNumLevels = u.mNumLevels ∧
    (enableMipmapGeneration u).mIOMipmapViewport = u.mIOMipmapViewport ∧
    (enableMipmapGeneration u).mIOMipmapFBO = u.mIOMipmapFBO

/-- The method `UnitInOut::setMipmappedIO` (lines 233-238). -/
def setMipmappedIO (U : UnitBase) (u : UnitInOut) (b : Bool) : UnitInOut :=
  let u1 := { u with mbDirtyOutputTextures := b }
  let u2 := { u1 with mbMipmappedIO := b }
  if b then U.enableMipmapGeneration u2 else u2

/-- The loop of `noticeChangeViewport` over the output map (lines 292-307);
`none` is the dereference of a null `mViewport`. -/
def resizeOutputs (viewport : Option Viewport) : TextureMap → Option TextureMap
  | [] => some []
  | (k, slot) :: rest =>
    match slot with
    | some t =>
      if t.is2D then
        match viewport with
        | none => none
        | some vp =>
          match resizeOutputs viewport rest with
          | none => none
          | some outs =>
            some ((k, some { t with textureWidth := vp.width, textureHeight := vp.height })
              :: outs)
      else
        match resizeOutputs viewport rest with
        | none => none
        | some outs => some ((k, slot) :: outs)
    | none =>
      match resizeOutputs viewport rest with
      | none => none
      | some outs => some ((k, slot) :: outs)

/-- The method `UnitInOut::noticeChangeViewport` (lines 289-308). -/
def noticeChangeViewport (u : UnitInOut) : Option UnitInOut :=
  match resizeOutputs u.mViewport u.mOutputTex with
  | none => none
  | some outs => some { u with mOutputTex := outs }

/-- The method `UnitInOut::init` (lines 61-76): `assignOutputTexture()`, then
`initializeBase()`. -/
def init (P : Platform) (U : UnitBase) (u : UnitInOut) : Option UnitInOut :=
  match assignOutputTexture P u with
  | none => none
  | some u1 => some (U.initializeBase u1)

/-- The default constructor `UnitInOut::UnitInOut()` (lines 44-52).  `base` is
the object as `Unit()` leaves it; the tables of `UnitInOut` start empty. -/
def construct (U : UnitBase) (base : UnitInOut) : UnitInOut :=
  let u0 := { base with mIOMipmapViewport := [], mIOMipmapFBO := [] }
  let u1 := { u0 with mFBO := some ⟨[]⟩ }
  let u2 := setMipmappedIO U u1 false
  { u2 with mNumLevels := 0 }

/-- The copy constructor `UnitInOut::UnitInOut(const UnitInOut&, const
osg::CopyOp&)` (lines 25-30).  `Unit(unit, copyop)` copies the members of the
base class (the embedding counts the render target among them); the two tables
of `UnitInOut` are not mentioned, so they start empty. -/
def copyConstruct (U : UnitBase) (unit : UnitInOut) : UnitInOut :=
  let u0 := { unit with mIOMipmapViewport := [], mIOMipmapFBO := [] }
  let u1 := setMipmappedIO U u0 ( UnitInOut.mbMipmappedIO unit)
  { u1 with mNumLevels := unit.mNumLevels }

/-- The states of an in/out unit that can be reached from a newly constructed
one by the operations of the class and by changes of the output texture map. -/
inductive Reachable (P : Platform) (U : UnitBase) : UnitInOut → Prop where
  | construct (base : UnitInOut) : Reachable P U (construct U base)
  | copyConstruct (s : UnitInOut) : Reachable P U s → Reachable P U (copyConstruct U s)
  | setMipmappedIO (s : UnitInOut) (b : Bool) :
      Reachable P U s → Reachable P U ( setMipmappedIO U s b)
  | setOutputs (s : UnitInOut) (outs : TextureMap) :
      Reachable P U s → Reachable P U { s with mOutputTex := outs }
  | assignOutputTexture (s s' : UnitInOut) :
      Reachable P U s → assignOutputTexture P s = some s' → Reachable P U s'
  | init (s s' : UnitInOut) : Reachable P U s → init P U s = some s' → Reachable P U s'
  | noticeChangeViewport (s s' : UnitInOut) :
      Reachable P U s → noticeChangeViewport s = some s' → Reachable P U s'
  | render (s s' : UnitInOut) (level : Int) (tr : List GLCommand) :
      Reachable P U s → render s level = some (s', tr) → Reachable P U s'

/-- A base class whose two methods leave the modelled members alone. -/
def sampleBase : UnitBase where
  enableMipmapGeneration := fun u => u
  initializeBase := fun u => u
  enable_mFBO := fun _ => rfl
  enable_own := fun _ => ⟨rfl, rfl, rfl, rfl⟩

/-! ## The repeat node (`UnitBypassRepeat.cpp`) -/

/-- A reference to a texture object: output `index` of the unit `node`, as
returned by `node->getOrCreateOutputTexture(index)`. -/
structure TextureRef where
  node : Nat
  index : Nat
deriving DecidableEq

/-- The struct `ChangeInputsCallback` (lines 28-53).  All four counters are
`unsigned`. -/
structure ChangeInputsCallback where
  _iteration : Nat
  _unit : Nat
  _changeOnIteration : Nat
  _numIterations : Nat
  _texture : TextureRef
deriving DecidableEq

/-- The constructor of `ChangeInputsCallback` (lines 30-36). -/
def ChangeInputsCallback.new (texture : TextureRef) (unit changeOn numIterations : Nat) :
    ChangeInputsCallback :=
  { _iteration := 0, _unit := unit, _changeOnIteration := changeOn,
    _numIterations := numIterations, _texture := texture }

/-- The call `ri.getState()->applyTextureAttribute(unit, texture)`. -/
structure TextureBinding where
  unit : Nat
  texture : TextureRef
deriving DecidableEq

/-- The call operator of `ChangeInputsCallback` (lines 38-46): the callback
after the call and the texture bindings it applied.  `none` is the remainder by
a zero `_numIterations`. -/
def ChangeInputsCallback.call (cb : ChangeInputsCallback) :
    Option (ChangeInputsCallback × List TextureBinding) :=
  let applied : List TextureBinding :=
    if cb._iteration ≥ cb._changeOnIteration then [⟨cb._unit, cb._texture⟩] else []
  if cb._numIterations = 0 then none
  else some ({ cb with _iteration := (cb._iteration + 1) % 2 ^ 32 % cb._numIterations }, applied)

/-- The callback after `t` calls and the bindings applied by each of them, in
order. -/
def ChangeInputsCallback.calls (cb : ChangeInputsCallback) :
    Nat → Option (ChangeInputsCallback × List (List TextureBinding))
  | 0 => some (cb, [])
  | t + 1 =>
    match ChangeInputsCallback.calls cb t with
    | none => none
    | some (cb1, log) =>
      match cb1.call with
      | none => none
      | some (cb2, applied) => some (cb2, log ++ [applied])

/-- The kinds of `osg::NodeVisitor::VisitorType`. -/
inductive VisitorType where
  | NODE_VISITOR
  | UPDATE_VISITOR
  | EVENT_VISITOR
  | COLLECT_OCCLUDER_VISITOR
  | CULL_VISITOR
deriving DecidableEq

/-- The part of the scene graph the repeat node looks at.  Nodes are named by
numbers.

* `isUnit n`: `dynamic_cast<Unit*>` succeeds on node `n`;
* `outputDepth n`: `some d` when `dynamic_cast<UnitInOut*>` succeeds on `n` and
  `getOutputDepth()` is `d`;
* `parents n`, `children n`: the parent and child lists of `n`, in order;
* `outputCount n`: `getOutputTextureMap().size()` of the unit `n`. -/
structure Scene where
  isUnit : Nat → Bool
  outputDepth : Nat → Option Nat
  parents : Nat → List Nat
  children : Nat → List Nat
  outputCount : Nat → Nat

/-- The members of a `UnitBypassRepeat` node; `self` is the node itself
(`this`).  The header declaring the members is not among the sources;
`_numIterations` and `_lastNodeOutputIndex` are taken as `unsigned` (32 bits),
like the counters of `ChangeInputsCallback`: their values are below `2^32` and
arithmetic on them is modulo `2^32`. -/
structure UnitBypassRepeat where
  self : Nat
  _numIterations : Nat
  _lastNode : Option Nat
  _lastNodeOutputIndex : Nat
deriving DecidableEq

/-- What `traverse` does, in program order: the base traversal
`UnitBypass::traverse(nv)`, a run of the `CleanCullTraversedVisitor` on the
node, `setNodeMask` on a node and `accept(nv)` on a node.  The base traversal
and `accept` are code outside the sources; they are recorded, and taken not to
change the members of the node or the child list of the boundary unit. -/
inductive TraverseEvent where
  | baseTraverse
  | cleanCullTraversed
  | setNodeMask (node : Nat) (mask : Nat)
  | accept (node : Nat)
deriving DecidableEq

/-- The first loop of `traverse` (lines 97-101): mask the unit children of the
boundary unit. -/
def maskChildren (S : Scene) : List Nat → List TraverseEvent
  | [] => []
  | c :: rest =>
    (if S.isUnit c then [TraverseEvent.setNodeMask c 0x0] else []) ++ maskChildren S rest

/-- The loop over the iterations of `traverse` (lines 104-111). -/
def repeatIterations : Nat → List TraverseEvent
  | 0 => []
  | n + 1 =>
    [TraverseEvent.cleanCullTraversed, TraverseEvent.baseTraverse] ++ repeatIterations n

/-- The last loop of `traverse` (lines 114-122): unmask and visit the unit
children of the boundary unit. -/
def visitChildren (S : Scene) : List Nat → List TraverseEvent
  | [] => []
  | c :: rest =>
    (if S.isUnit c then
      [TraverseEvent.setNodeMask c 0xFFFFFFFF, TraverseEvent.accept c] else [])
    ++ visitChildren S rest

/-- The method `UnitBypassRepeat::traverse` (lines 87-123). -/
def UnitBypassRepeat.traverse (S : Scene) (r : UnitBypassRepeat) (vt : VisitorType) :
    List TraverseEvent :=
  if vt ≠ VisitorType.CULL_VISITOR ∨ r._lastNode = none ∨ r._numIterations ≤ 1 then
    [TraverseEvent.baseTraverse]
  else
    match r._lastNode with
    | none => [TraverseEvent.baseTraverse]
    | some last =>
      maskChildren S (S.children last) ++ repeatIterations r._numIterations
        ++ visitChildren S (S.children last)

/-- What `init` does besides changing members of the node: the two `osg::notify`
messages, the call of `Unit::init()` and `setBeginDrawCallback` on a unit.
`Unit::init()` is code of the base class, outside the sources; it is recorded,
and it cannot reach the members of `UnitBypassRepeat`. -/
inductive InitEvent where
  | notifyFatal (numParents : Nat)
  | unitInit
  | notifyWarn (numOutputs : Nat) (index : Nat)
  | setBeginDrawCallback (unit : Nat) (cb : ChangeInputsCallback)
deriving DecidableEq

/-- The number of input slots a parent takes (lines 159-161): its output depth
when it is a `UnitInOut`, one otherwise. -/
def inputSlots (S : Scene) (parent : Nat) : Nat :=
  match S.outputDepth parent with
  | some depth => depth
  | none => 1

/-- The loop of `init` over the parents of one child (lines 153-162), at input
slot `index`. -/
def parentLoop (S : Scene) (r : UnitBypassRepeat) (last unit : Nat) :
    List Nat → Nat → List InitEvent
  | [], _ => []
  | parent :: rest, index =>
    (if parent = r.self then
      [InitEvent.setBeginDrawCallback unit
        (ChangeInputsCallback.new ⟨last, r._lastNodeOutputIndex⟩ index 1 r._numIterations)]
     else [])
    ++ parentLoop S r last unit rest (index + inputSlots S parent)

/-- The loop of `init` over the children of the node (lines 147-164). -/
def childLoop (S : Scene) (r : UnitBypassRepeat) (last : Nat) : List Nat → List InitEvent
  | [] => []
  | child :: rest =>
    (if S.isUnit child then parentLoop S r last child (S.parents child) 0 else [])
    ++ childLoop S r last rest

/-- The method `UnitBypassRepeat::init` (lines 126-165): the node after the
call and what the call did.  The sum `_lastNodeOutputIndex + 1` of line 140 is
computed in `unsigned` arithmetic before it is compared with the `size()`. -/
def UnitBypassRepeat.init (S : Scene) (r : UnitBypassRepeat) :
    UnitBypassRepeat × List InitEvent :=
  if (S.parents r.self).length > 1 then
    (r, [InitEvent.notifyFatal (S.parents r.self).length])
  else if r._lastNode = none ∨ r._numIterations ≤ 1 then (r, [InitEvent.unitInit])
  else
    match r._lastNode with
    | none => (r, [InitEvent.unitInit])
    | some last =>
      if S.outputCount last > (r._lastNodeOutputIndex + 1) % 2 ^ 32 then
        let r1 := { r with _lastNodeOutputIndex := 0 }
        (r1, [InitEvent.unitInit,
              InitEvent.notifyWarn (S.outputCount last) r._lastNodeOutputIndex]
            ++ childLoop S r1 last (S.children r.self))
      else
        (r, [InitEvent.unitInit] ++ childLoop S r last (S.children r.self))

/-- The callback a unit holds after the events of `init`, when it held `old`
before: the one of the last `setBeginDrawCallback` on it. -/
def installedFrom (unit : Nat) (old : Option ChangeInputsCallback) :
    List InitEvent → Option ChangeInputsCallback
  | [] => old
  | InitEvent.setBeginDrawCallback u cb :: rest =>
    installedFrom unit (if u = unit then some cb else old) rest
  | _ :: rest => installedFrom unit old rest

/-- The callback `init` installed on a unit, if any. -/
def installed (unit : Nat) (events : List InitEvent) : Option ChangeInputsCallback :=
  installedFrom unit none events

/-- The parents of a unit that precede the last occurrence of the node `self`
in its parent list. -/
def beforeLast (self : Nat) : List Nat → List Nat
  | [] => []
  | parent :: rest => if self ∈ rest then parent :: beforeLast self rest else []

/-- The traversal of a plain bypass node: the base traversal, once. -/
def bypassTraverse : List TraverseEvent := [TraverseEvent.baseTraverse]

/-! ## Auxiliary definitions for the statements on the repeat node -/

/-- The bindings the `i`-th call of a fresh callback is expected to apply. -/
def expectedBindings (texture : TextureRef) (unit changeOn numIterations i : Nat) :
    List TextureBinding :=
  if changeOn ≤ i % numIterations then [⟨unit, texture⟩] else []

/-- The callback `init` builds for a unit whose parent list is `ps`. -/
def expectedCallback (S : Scene) (r : UnitBypassRepeat) (last : Nat) (ps : List Nat) :
    ChangeInputsCallback :=
  ChangeInputsCallback.new ⟨last, r._lastNodeOutputIndex⟩
    (((beforeLast r.self ps).map (inputSlots S)).sum) 1 r._numIterations

/-! ## Sample data for the repeat node -/

/-- A scene around the repeat node `0`: its parent is `1`; its children are the
units `4`, `7`, `8` and the node `9`, which is no unit; unit `4` has the
parents `5` (an in/out unit of output depth 2), `0`, `6`, `0`, unit `7` has the
parent `0`, unit `8` lists no parent; the boundary unit `3` has three outputs
and the children `10`, `9`, `11`. -/
def sampleScene : Scene where
  isUnit := fun n => n != 9
  outputDepth := fun n => if n = 5 then some 2 else none
  parents := fun n =>
    if n = 0 then [1] else if n = 4 then [5, 0, 6, 0] else if n = 7 then [0] else []
  children := fun n => if n = 0 then [4, 9, 7, 8] else if n = 3 then [10, 9, 11] else []
  outputCount := fun n => if n = 3 then 3 else 0

/-- The scene `sampleScene` with a second parent, `2`, on the repeat node. -/
def twoParentScene : Scene :=
  { sampleScene with
    parents := fun n => if n = 0 then [1, 2] else sampleScene.parents n }

/-- The repeat node `0` with three iterations, boundary unit `3` and output
index `2`. -/
def sampleRepeat : UnitBypassRepeat :=
  { self := 0, _numIterations := 3, _lastNode := some 3, _lastNodeOutputIndex := 2 }

/-- The repeat node `0` with one iteration. -/
def singleRepeat : UnitBypassRepeat :=
  { self := 0, _numIterations := 1, _lastNode := some 3, _lastNodeOutputIndex := 0 }

/-- The repeat node `0` with three iterations, boundary unit `3` and output
index `5`, beyond the three outputs of the boundary unit. -/
def farIndexRepeat : UnitBypassRepeat :=
  { self := 0, _numIterations := 3, _lastNode := some 3, _lastNodeOutputIndex := 5 }

/-! ## Lemmas: render-target attachments -/

theorem insertAttachment_append (k : Nat) (a : FrameBufferAttachment) :
    ∀ l : List (Nat × FrameBufferAttachment), (∀ p ∈ l, p.1 < k) →
      insertAttachment k a l = l ++ [(k, a)]
  | [], _ => rfl
  | (k', a') :: rest, h => by
    have hk : k' < k := h (k', a') (List.mem_cons_self _ _)
    have hrest : ∀ p ∈ rest, p.1 < k := fun p hp => h p (List.mem_cons_of_mem _ hp)
    have h1 : ¬ k < k' := by omega
    have h2 : ¬ k = k' := by omega
    simp [insertAttachment, h1, h2, insertAttachment_append k a rest hrest]

theorem insertAttachment_self (k : Nat) (a : FrameBufferAttachment) :
    ∀ l : List (Nat × FrameBufferAttachment),
      insertAttachment k a (insertAttachment k a l) = insertAttachment k a l
  | [] => by simp [insertAttachment]
  | (k', a') :: rest => by
    by_cases h1 : k < k'
    · simp [insertAttachment, h1]
    · by_cases h2 : k = k'
      · simp [insertAttachment, h1, h2]
      · simp [insertAttachment, h1, h2, insertAttachment_self k a rest]

theorem insertAttachment_stable (k k' : Nat) (a a' : FrameBufferAttachment) (hk : k ≠ k') :
    ∀ l : List (Nat × FrameBufferAttachment),
      insertAttachment k a l = l →
        insertAttachment k a (insertAttachment k' a' l) = insertAttachment k' a' l
  | [], h => by simp [insertAttachment] at h
  | (c, b) :: rest, h => by
    by_cases h1 : k < c
    · simp [insertAttachment, h1] at h
    · by_cases h2 : k = c
      · subst h2
        simp only [insertAttachment, h1, if_false, if_true, List.cons.injEq, Prod.mk.injEq,
          true_and, and_true] at h
        subst h
        by_cases h3 : k' < k
        · have h4 : ¬ k < k' := by omega
          simp [insertAttachment, h3, h4, hk, h1]
        · have h5 : ¬ k' = k := fun e => hk e.symm
          simp [insertAttachment, h3, h5, h1]
      · simp only [insertAttachment, h1, h2, if_false, List.cons.injEq, true_and] at h
        have ih := insertAttachment_stable k k' a a' hk rest h
        by_cases h3 : k' < c
        · have h4 : ¬ k < k' := by omega
          simp [insertAttachment, h3, h4, hk, h1, h2, h]
        · by_cases h5 : k' = c
          · subst h5
            simp [insertAttachment, h1, h2, h]
          · simp [insertAttachment, h3, h5, h1, h2, ih]

theorem lookupAttachment_insert_self (k : Nat) (a : FrameBufferAttachment) :
    ∀ l : List (Nat × FrameBufferAttachment),
      lookupAttachment k (insertAttachment k a l) = some a
  | [] => by simp [insertAttachment, lookupAttachment]
  | (k', a') :: rest => by
    by_cases h1 : k < k'
    · simp [insertAttachment, lookupAttachment, h1]
    · by_cases h2 : k = k'
      · simp [insertAttachment, lookupAttachment, h1, h2]
      · simp [insertAttachment, lookupAttachment, h1, h2,
          lookupAttachment_insert_self k a rest]

theorem lookupAttachment_insert_other (k k' : Nat) (a' : FrameBufferAttachment)
    (hk : k ≠ k') :
    ∀ l : List (Nat × FrameBufferAttachment),
      lookupAttachment k (insertAttachment k' a' l) = lookupAttachment k l
  | [] => by simp [insertAttachment, lookupAttachment, hk]
  | (c, b) :: rest => by
    by_cases h1 : k' < c
    · simp [insertAttachment, lookupAttachment, h1, hk]
    · by_cases h2 : k' = c
      · subst h2
        simp [insertAttachment, lookupAttachment, h1, hk]
      · by_cases h3 : k = c
        · simp [insertAttachment, lookupAttachment, h1, h2, h3]
        · simp [insertAttachment, lookupAttachment, h1, h2, h3,
            lookupAttachment_insert_other k k' a' hk rest]

theorem attachIds_stable_of_lt (k : Nat) (a : FrameBufferAttachment) :
    ∀ (ids : List Nat) (i : Nat) (fbo : FrameBufferObject),
      k < GL_COLOR_ATTACHMENT0_EXT + i →
      insertAttachment k a fbo.attachments = fbo.attachments →
      insertAttachment k a (attachIds ids i fbo).attachments = (attachIds ids i fbo).attachments
  | [], _, _, _, h => h
  | id :: rest, i, fbo, hk, h => by
    simp only [attachIds]
    apply attachIds_stable_of_lt k a rest (i + 1) _ (by omega)
    simp only [FrameBufferObject.setAttachment]
    exact insertAttachment_stable k _ a _ (by omega) _ h

theorem attachIds_fixed :
    ∀ (ids : List Nat) (i : Nat) (fbo target : FrameBufferObject),
      target = attachIds ids i fbo → attachIds ids i target = target
  | [], _, _, _, _ => rfl
  | id :: rest, i, fbo, target, h => by
    simp only [attachIds] at h ⊢
    have hst : insertAttachment (GL_COLOR_ATTACHMENT0_EXT + i) ⟨id, 0⟩ target.attachments =
        target.attachments := by
      rw [h]
      apply attachIds_stable_of_lt _ _ rest (i + 1) _ (by omega)
      simp only [FrameBufferObject.setAttachment]
      exact insertAttachment_self _ _ _
    have hset : target.setAttachment (GL_COLOR_ATTACHMENT0_EXT + i) ⟨id, 0⟩ = target := by
      cases target
      simp only [FrameBufferObject.setAttachment] at hst ⊢
      rw [hst]
    rw [hset]
    exact attachIds_fixed rest (i + 1) _ target h

theorem attachIds_lookup_lt (k : Nat) :
    ∀ (ids : List Nat) (i : Nat) (fbo : FrameBufferObject),
      k < GL_COLOR_ATTACHMENT0_EXT + i →
        (attachIds ids i fbo).getAttachment k = fbo.getAttachment k
  | [], _, _, _ => rfl
  | id :: rest, i, fbo, hk => by
    simp only [attachIds]
    rw [attachIds_lookup_lt k rest (i + 1) _ (by omega)]
    simp only [FrameBufferObject.getAttachment, FrameBufferObject.setAttachment]
    exact lookupAttachment_insert_other k _ _ (by omega) _

theorem attachIds_lookup :
    ∀ (ids : List Nat) (i : Nat) (fbo : FrameBufferObject) (j id : Nat),
      ids[j]? = some id →
        (attachIds ids i fbo).getAttachment (GL_COLOR_ATTACHMENT0_EXT + (i + j)) =
          some ⟨id, 0⟩
  | [], _, _, _, _, h => by simp at h
  | x :: rest, i, fbo, 0, id, h => by
    simp only [List.getElem?_cons_zero, Option.some.injEq] at h
    subst h
    simp only [attachIds, Nat.add_zero]
    rw [attachIds_lookup_lt _ rest (i + 1) _ (by omega)]
    simp only [FrameBufferObject.getAttachment, FrameBufferObject.setAttachment]
    exact lookupAttachment_insert_self _ _ _
  | x :: rest, i, fbo, j + 1, id, h => by
    simp only [List.getElem?_cons_succ] at h
    simp only [attachIds]
    have := attachIds_lookup rest (i + 1) (fbo.setAttachment (GL_COLOR_ATTACHMENT0_EXT + i) ⟨x, 0⟩)
      j id h
    rw [← this]
    congr 2
    omega

theorem outputIds_getElem :
    ∀ (outs : TextureMap) (j : Nat) (k : Int) (t : Texture), All2D outs →
      outs[j]? = some (k, some t) → (outputIds outs)[j]? = some t.id
  | [], _, _, _, _, h => by simp at h
  | (k', slot) :: rest, 0, k, t, _, h => by
    simp only [List.getElem?_cons_zero, Option.some.injEq, Prod.mk.injEq] at h
    obtain ⟨-, rfl⟩ := h
    simp [outputIds]
  | (k', slot) :: rest, j + 1, k, t, h2d, h => by
    simp only [List.getElem?_cons_succ] at h
    obtain ⟨t', hslot, -⟩ := h2d (k', slot) (List.mem_cons_self _ _)
    simp only at hslot
    subst hslot
    have hrest : All2D rest := fun p hp => h2d p (List.mem_cons_of_mem _ hp)
    have := outputIds_getElem rest j k t hrest h
    simpa [outputIds] using this

/-! ## Lemmas: the floating-point level count -/

/-- The divisor `(float)M_LN2` is larger than `ln 2`, so at a power of two `2^k`
the exact quotient `log(2^k) / (float)M_LN2` lies below `k`. -/
theorem log_pow_two_div_ln2f_lt (k : ℕ) (hk : 0 < k) :
    Real.log ((2 : ℝ) ^ k) / (ln2f : ℝ) < k := by
  have e : (ln2f : ℝ) = 11629080 / 16777216 := by simp [ln2f]
  have h2 : Real.log 2 < (ln2f : ℝ) := by
    have := Real.log_two_lt_d9
    rw [e]
    norm_num at this ⊢
    linarith
  have hpos : (0 : ℝ) < (ln2f : ℝ) := lt_trans (Real.log_pos (by norm_num)) h2
  rw [div_lt_iff₀ hpos, Real.log_pow]
  have hk' : (0 : ℝ) < k := by exact_mod_cast hk
  nlinarith

/-- Evaluated without rounding, `floor(log(256) / (float)M_LN2)` is `7`, not
`8`: the value `8` is only reached when the rounding of `log` makes up for the
rounding of the divisor.  This is why `Platform.floorLog2` is a parameter. -/
theorem floor_log_256_div_ln2f : ⌊Real.log 256 / (ln2f : ℝ)⌋ = 7 := by
  have h := log_pow_two_div_ln2f_lt 8 (by norm_num)
  have e : ((2 : ℝ) ^ 8) = 256 := by norm_num
  have e2 : Real.log 256 = 8 * Real.log 2 := by
    rw [← e, Real.log_pow]; norm_num
  have e3 : (ln2f : ℝ) = 11629080 / 16777216 := by simp [ln2f]
  rw [e] at h
  rw [Int.floor_eq_iff]
  constructor
  · have h2 : (0.6931471803 : ℝ) < Real.log 2 := Real.log_two_gt_d9
    rw [e2, e3, le_div_iff₀ (by norm_num)]
    norm_num
    linarith
  · norm_num at h ⊢
    linarith

theorem floor_near_log_256 (q : ℝ) (hq : |q - Real.log 256 / (ln2f : ℝ)| ≤ 1 / 10 ^ 8) :
    ⌊q⌋ = 7 := by
  have e : ((2 : ℝ) ^ 8) = 256 := by norm_num
  have e2 : Real.log 256 = 8 * Real.log 2 := by
    rw [← e, Real.log_pow]; norm_num
  have e3 : (ln2f : ℝ) = 11629080 / 16777216 := by simp [ln2f]
  have hlo : (0.6931471803 : ℝ) < Real.log 2 := Real.log_two_gt_d9
  have hhi : Real.log 2 < (0.6931471808 : ℝ) := Real.log_two_lt_d9
  have h1 : (7.9999999 : ℝ) < Real.log 256 / (ln2f : ℝ) := by
    rw [e2, e3, lt_div_iff₀ (by norm_num)]
    norm_num
    linarith
  have h2 : Real.log 256 / (ln2f : ℝ) < (7.999999985 : ℝ) := by
    rw [e2, e3, div_lt_iff₀ (by norm_num)]
    norm_num
    linarith
  obtain ⟨h3, h4⟩ := abs_le.1 hq
  rw [Int.floor_eq_iff]
  constructor
  · norm_num at h1 h3 ⊢
    linarith
  · norm_num at h2 h4 ⊢
    linarith

theorem log_16777215_bounds :
    (16.6355322 : ℝ) < Real.log 16777215 ∧ Real.log 16777215 < (16.6355324 : ℝ) := by
  have hlo : (0.6931471803 : ℝ) < Real.log 2 := Real.log_two_gt_d9
  have hhi : Real.log 2 < (0.6931471808 : ℝ) := Real.log_two_lt_d9
  have e24 : Real.log ((2 : ℝ) ^ 24) = 24 * Real.log 2 := by
    rw [Real.log_pow]; norm_num
  have hx : (0 : ℝ) < 16777215 / 2 ^ 24 := by positivity
  have hsplit : Real.log 16777215 = Real.log (16777215 / 2 ^ 24) + Real.log ((2 : ℝ) ^ 24) := by
    rw [← Real.log_mul (ne_of_gt hx) (by positivity)]
    congr 1
    norm_num
  have h1 := Real.one_sub_inv_le_log_of_pos hx
  have h2 : Real.log 16777215 < Real.log ((2 : ℝ) ^ 24) :=
    Real.log_lt_log (by norm_num) (by norm_num)
  constructor
  · rw [hsplit, e24]
    norm_num at h1 ⊢
    linarith
  · rw [e24] at h2
    linarith

theorem float_near_log_16777215 (n : ℤ)
    (hn : |(n : ℝ) / 2 ^ 19 - Real.log 16777215| ≤ 1 / 2 ^ 20) : n = 8721810 := by
  obtain ⟨b1, b2⟩ := log_16777215_bounds
  obtain ⟨h3, h4⟩ := abs_le.1 hn
  have hlo : (8721809 : ℝ) < n := by
    have : (n : ℝ) / 2 ^ 19 > 16.6355312 := by norm_num at h3 ⊢; linarith
    rw [gt_iff_lt, lt_div_iff₀ (by positivity)] at this
    norm_num at this ⊢
    linarith
  have hhi : (n : ℝ) < 8721811 := by
    have : (n : ℝ) / 2 ^ 19 < 16.6355334 := by norm_num at h4 ⊢; linarith
    rw [div_lt_iff₀ (by positivity)] at this
    norm_num at this ⊢
    linarith
  have hlo' : (8721809 : ℤ) < n := by exact_mod_cast hlo
  have hhi' : n < (8721811 : ℤ) := by exact_mod_cast hhi
  omega

theorem floor_float_quotient : ⌊((8721810 : ℤ) : ℝ) / 2 ^ 19 / (ln2f : ℝ)⌋ = 24 := by
  have e3 : (ln2f : ℝ) = 11629080 / 16777216 := by simp [ln2f]
  have : ((8721810 : ℤ) : ℝ) / 2 ^ 19 / (ln2f : ℝ) = ((24 : ℤ) : ℝ) := by
    rw [e3]; norm_num
  rw [this, Int.floor_intCast]

theorem near_log_16777215 :
    |((8721810 : ℤ) : ℝ) / 2 ^ 19 - Real.log 16777215| ≤ 1 / 2 ^ 20 := by
  obtain ⟨b1, b2⟩ := log_16777215_bounds
  rw [abs_le]
  constructor <;> norm_num at b1 b2 ⊢ <;> linarith

/-! ## Lemmas: the mipmap sub-pass table -/

theorem f32_eq_self (n : Int) (h0 : 0 ≤ n) (h : n ≤ 2 ^ 24) : f32 n = n := by
  rcases lt_or_eq_of_le h with hlt | heq
  · have hlt' : n.natAbs < 2 ^ 24 := by omega
    unfold f32
    exact if_pos hlt'
  · subst heq; decide

theorem log2Fuel_eq_log : ∀ (fuel n : Nat), n ≤ fuel → log2Fuel fuel n = Nat.log 2 n
  | 0, n, h => by
    have : n = 0 := by omega
    subst this
    simp [log2Fuel]
  | fuel + 1, n, h => by
    unfold log2Fuel
    by_cases h2 : n < 2
    · rw [if_pos h2, Nat.log_of_lt h2]
    · rw [if_neg h2, log2Fuel_eq_log fuel (n / 2) (by omega),
        @Nat.log_of_one_lt_of_le 2 n (by norm_num) (by omega)]
      omega

theorem ilog2_eq_log (n : Nat) : ilog2 n = Nat.log 2 n :=
  log2Fuel_eq_log n n (le_refl n)

theorem f32_of_rep (x : Nat) (h : Rep24 x) : f32 (x : Int) = x := by
  obtain ⟨q, k, hq, hx⟩ := h
  unfold f32
  simp only [Int.natAbs_ofNat]
  by_cases hlt : x < 2 ^ 24
  · rw [if_pos hlt]
  · rw [if_neg hlt]
    have hx24 : 2 ^ 24 ≤ x := by omega
    have hxne : x ≠ 0 := by omega
    have hdiv : 2 ^ (ilog2 x - 23) ∣ x := by
      rw [ilog2_eq_log]
      rcases Nat.lt_or_ge q (2 ^ 24) with hq' | hq'
      · have hlt2 : x < 2 ^ (24 + k) := by
          rw [hx, pow_add]
          exact Nat.mul_lt_mul_of_pos_right hq' (by positivity)
        have hL : Nat.log 2 x < 24 + k := Nat.log_lt_of_lt_pow hxne hlt2
        have h1 : 2 ^ (Nat.log 2 x - 23) ∣ 2 ^ k := pow_dvd_pow 2 (by omega)
        exact h1.trans (Dvd.intro_left q hx.symm)
      · have hq24 : q = 2 ^ 24 := by omega
        have hx' : x = 2 ^ (24 + k) := by rw [hx, hq24, pow_add]
        rw [hx', Nat.log_pow (by norm_num)]
        exact pow_dvd_pow 2 (by omega)
    have he : 1 ≤ ilog2 x - 23 := by
      rw [ilog2_eq_log]
      have : 24 ≤ Nat.log 2 x := Nat.le_log_of_pow_le (by norm_num) hx24
      omega
    have hr : x % 2 ^ (ilog2 x - 23) = 0 := Nat.mod_eq_zero_of_dvd hdiv
    have hhalf : 0 < 2 ^ (ilog2 x - 23 - 1) := by positivity
    simp only [hr]
    have hc : ¬ (2 ^ (ilog2 x - 23 - 1) < 0 ∨
        (0 = 2 ^ (ilog2 x - 23 - 1) ∧ x / 2 ^ (ilog2 x - 23) % 2 = 1)) := by
      intro h
      rcases h with h | h
      · omega
      · omega
    rw [if_neg hc, Nat.div_mul_cancel hdiv]
    have : Int.sign (x : Int) = 1 := Int.sign_eq_one_of_pos (by omega)
    rw [this, one_mul]

theorem f32_rep_of_nonneg (n : Int) (h0 : 0 ≤ n) : ∃ x : Nat, Rep24 x ∧ f32 n = x := by
  obtain ⟨a, rfl⟩ := Int.eq_ofNat_of_zero_le h0
  unfold f32
  simp only [Int.natAbs_ofNat]
  by_cases hlt : a < 2 ^ 24
  · rw [if_pos hlt]
    exact ⟨a, ⟨a, 0, by omega, by simp⟩, rfl⟩
  · rw [if_neg hlt]
    have ha24 : 2 ^ 24 ≤ a := by omega
    have hane : a ≠ 0 := by omega
    have hL : 24 ≤ Nat.log 2 a := Nat.le_log_of_pow_le (by norm_num) ha24
    have hq : a / 2 ^ (ilog2 a - 23) < 2 ^ 24 := by
      rw [ilog2_eq_log, Nat.div_lt_iff_lt_mul (by positivity), ← pow_add]
      have : 24 + (Nat.log 2 a - 23) = Nat.log 2 a + 1 := by omega
      rw [this]
      exact Nat.lt_pow_succ_log_self (by norm_num) a
    have hs : Int.sign (a : Int) = 1 := Int.sign_eq_one_of_pos (by omega)
    rw [hs, one_mul]
    refine ⟨_, ⟨_, ilog2 a - 23, ?_, rfl⟩, rfl⟩
    split <;> omega

theorem rep24_div (x i : Nat) (h : Rep24 x) : Rep24 (x / 2 ^ i) := by
  obtain ⟨q, k, hq, hx⟩ := h
  rcases Nat.le_total i k with hik | hki
  · refine ⟨q, k - i, hq, ?_⟩
    have hk : k = (k - i) + i := by omega
    rw [hx]
    nth_rewrite 1 [hk]
    rw [pow_add, ← Nat.mul_assoc, Nat.mul_div_cancel _ (by positivity)]
  · refine ⟨x / 2 ^ i, 0, ?_, by simp⟩
    have hi : i = k + (i - k) := by omega
    rw [hx, hi, pow_add, ← Nat.div_div_eq_div_mul, Nat.mul_div_cancel _ (by positivity)]
    exact le_trans (Nat.div_le_self _ _) hq

theorem f32_levelDim (dim : Int) (level : Nat) : f32 (levelDim dim level) = levelDim dim level := by
  unfold levelDim
  rcases le_or_lt 0 dim with h0 | hneg
  · obtain ⟨x, hx, hf⟩ := f32_rep_of_nonneg dim h0
    rw [hf]
    have hd : ((x : Int) / 2 ^ level) = ((x / 2 ^ level : Nat) : Int) := by
      push_cast
      rfl
    rw [hd]
    have hrep := rep24_div x level hx
    rcases Nat.eq_zero_or_pos (x / 2 ^ level) with hz | hp
    · rw [hz]
      decide
    · have hm : max (1 : Int) ((x / 2 ^ level : Nat) : Int) = ((x / 2 ^ level : Nat) : Int) := by
        apply max_eq_right
        exact_mod_cast hp
      rw [hm]
      exact f32_of_rep _ hrep
  · have hf : f32 dim ≤ 0 := by
      unfold f32
      simp only
      split
      · omega
      · have hs : Int.sign dim = -1 := Int.sign_eq_neg_one_of_neg hneg
        rw [hs]
        omega
    have hp : (0 : Int) < 2 ^ level := by positivity
    have hq : f32 dim / 2 ^ level < 1 := Int.ediv_lt_of_lt_mul hp (by omega)
    have hm : max (1 : Int) (f32 dim / 2 ^ level) = 1 := max_eq_left (by omega)
    rw [hm]
    decide

theorem f32_natCast_small (i : Nat) (h : i ≤ 2 ^ 24) : f32 (i : Int) = i :=
  f32_eq_self i (Int.natCast_nonneg i) (by exact_mod_cast h)

theorem levelViewport_exact (w h : Int) (L : Nat) (hw0 : 0 ≤ w) (hh0 : 0 ≤ h)
    (hw : w ≤ 2 ^ 24) (hh : h ≤ 2 ^ 24) :
    levelViewport w h L = ⟨0, 0, max 1 (w / 2 ^ L), max 1 (h / 2 ^ L)⟩ := by
  simp [levelViewport, levelDim, f32_eq_self w hw0 hw, f32_eq_self h hh0 hh]

theorem attachLevel_uniform (w h : Int) (level : Nat) :
    ∀ (outs : TextureMap), AllOutputs w h outs →
      ∀ (mrt : Nat) (pre : List (Nat × FrameBufferAttachment)),
        (∀ p ∈ pre, p.1 < GL_COLOR_ATTACHMENT0_EXT + mrt) →
        attachLevel w h level outs mrt ⟨pre⟩ =
          Flow.next ⟨pre ++ (List.enumFrom mrt (outputIds outs)).map fun p =>
            (GL_COLOR_ATTACHMENT0_EXT + p.1, (⟨p.2, level⟩ : FrameBufferAttachment))⟩
  | [], _, mrt, pre, _ => by simp [attachLevel, outputIds]
  | (k, slot) :: rest, hall, mrt, pre, hpre => by
    obtain ⟨t, hslot, h2d, hw, hh⟩ := hall (k, slot) (List.mem_cons_self _ _)
    have hrest : AllOutputs w h rest := fun p hp => hall p (List.mem_cons_of_mem _ hp)
    simp only at hslot
    subst hslot
    have hpre' : ∀ p ∈ pre ++ [(GL_COLOR_ATTACHMENT0_EXT + mrt, (⟨t.id, level⟩ : FrameBufferAttachment))],
        p.1 < GL_COLOR_ATTACHMENT0_EXT + (mrt + 1) := by
      intro p hp
      rcases List.mem_append.1 hp with hp | hp
      · have := hpre p hp; omega
      · simp at hp; subst hp; simp
    have ih := attachLevel_uniform w h level rest hrest (mrt + 1) _ hpre'
    simp [attachLevel, dynCastTexture2D, h2d, hw, hh, FrameBufferObject.setAttachment,
      insertAttachment_append _ _ pre hpre, ih, outputIds, List.enumFrom]

theorem attachLevel_levelFBO (w h : Int) (level : Nat) (outs : TextureMap)
    (hall : AllOutputs w h outs) :
    attachLevel w h level outs 0 ⟨[]⟩ = Flow.next (levelFBO (outputIds outs) level) := by
  have := attachLevel_uniform w h level outs hall 0 [] (by simp)
  simpa [levelFBO] using this

theorem attachLevel_mismatch (w h : Int) (level : Nat) :
    ∀ (outs : TextureMap), All2D outs → SomeOtherSize w h outs →
      ∀ (mrt : Nat) (fbo : FrameBufferObject), attachLevel w h level outs mrt fbo = Flow.ret
  | [], _, hmis, _, _ => by
    obtain ⟨p, hp, -⟩ := hmis
    exact absurd hp (List.not_mem_nil p)
  | (k, slot) :: rest, h2d, hmis, mrt, fbo => by
    obtain ⟨t, hslot, ht⟩ := h2d (k, slot) (List.mem_cons_self _ _)
    simp only at hslot
    subst hslot
    by_cases hsz : t.textureWidth ≠ w ∨ t.textureHeight ≠ h
    · simp [attachLevel, dynCastTexture2D, ht, hsz]
    · have hrest2d : All2D rest := fun p hp => h2d p (List.mem_cons_of_mem _ hp)
      have hrestmis : SomeOtherSize w h rest := by
        obtain ⟨p, hp, t', hp', hne⟩ := hmis
        rcases List.mem_cons.1 hp with rfl | hp
        · simp only [Option.some.injEq] at hp'
          subst hp'
          exact absurd hne hsz
        · exact ⟨p, hp, t', hp', hne⟩
      have ih := attachLevel_mismatch w h level rest hrest2d hrestmis
      simp only [attachLevel, dynCastTexture2D, ht, if_true, hsz, if_false]
      exact ih _ _

theorem attachLevel_no_fault (w h : Int) (level : Nat) :
    ∀ (outs : TextureMap), All2D outs → ∀ (mrt : Nat) (fbo : FrameBufferObject),
      attachLevel w h level outs mrt fbo ≠ Flow.fault
  | [], _, _, _ => by simp [attachLevel]
  | (k, slot) :: rest, h2d, mrt, fbo => by
    obtain ⟨t, hslot, ht⟩ := h2d (k, slot) (List.mem_cons_self _ _)
    simp only at hslot
    subst hslot
    have hrest : All2D rest := fun p hp => h2d p (List.mem_cons_of_mem _ hp)
    simp only [attachLevel, dynCastTexture2D, ht, if_true]
    split
    · simp
    · exact attachLevel_no_fault w h level rest hrest _ _

theorem buildLevels_uniform (w h : Int) :
    ∀ (n level : Nat) (u : UnitInOut), AllOutputs w h u.mOutputTex →
      buildLevels w h n level u = some { u with
        mIOMipmapViewport := u.mIOMipmapViewport ++ (List.range' level n).map (levelViewport w h)
        mIOMipmapFBO := u.mIOMipmapFBO ++
          (List.range' level n).map (levelFBO (outputIds u.mOutputTex)) }
  | 0, level, u, _ => by simp [buildLevels]
  | n + 1, level, u, hall => by
    have ih := buildLevels_uniform w h n (level + 1)
      { u with
        mIOMipmapViewport := u.mIOMipmapViewport ++ [levelViewport w h level]
        mIOMipmapFBO := u.mIOMipmapFBO ++ [levelFBO (outputIds u.mOutputTex) level] } hall
    simp only [buildLevels, attachLevel_levelFBO w h level u.mOutputTex hall]
    simp only [levelViewport] at ih ⊢
    rw [ih]
    simp [List.range'_succ, levelViewport]

theorem buildLevels_eq (w h : Int) :
    ∀ (n level : Nat) (u : UnitInOut),
      buildLevels w h n level u =
        (levelTables w h u.mOutputTex n level u.mIOMipmapViewport u.mIOMipmapFBO).map
          fun t => { u with mIOMipmapViewport := t.1, mIOMipmapFBO := t.2 }
  | 0, level, u => by simp [buildLevels, levelTables]
  | n + 1, level, u => by
    simp only [buildLevels, levelTables]
    cases hatt : attachLevel w h level u.mOutputTex 0 ⟨[]⟩ with
    | fault => simp
    | ret => simp [levelViewport]
    | next fbo =>
      simp only
      rw [buildLevels_eq w h n (level + 1)]
      simp [levelViewport]

theorem levelTables_isSome (w h : Int) (outs : TextureMap) (h2d : All2D outs) :
    ∀ (n level : Nat) (vps : List Viewport) (fbos : List FrameBufferObject),
      ∃ t, levelTables w h outs n level vps fbos = some t
  | 0, _, vps, fbos => ⟨_, rfl⟩
  | n + 1, level, vps, fbos => by
    simp only [levelTables]
    cases hatt : attachLevel w h level outs 0 ⟨[]⟩ with
    | fault => exact absurd hatt (attachLevel_no_fault w h level outs h2d _ _)
    | ret => exact ⟨_, rfl⟩
    | next fbo => exact levelTables_isSome w h outs h2d n _ _ _

theorem checkIOMipmappedData_uniform (P : Platform) (u : UnitInOut) (w h : Int)
    (hfbo : u.mFBO.isSome = true) (hmip : UnitInOut.mbMipmappedIO u = true)
    (hne : u.mOutputTex ≠ []) (hall : AllOutputs w h u.mOutputTex) :
    checkIOMipmappedData P u = some { u with
      mNumLevels := 1 + P.floorLog2 (max w h)
      mIOMipmapViewport :=
        (List.range (1 + P.floorLog2 (max w h)).toNat).map (levelViewport w h)
      mIOMipmapFBO :=
        (List.range (1 + P.floorLog2 (max w h)).toNat).map (levelFBO (outputIds u.mOutputTex)) } := by
  obtain ⟨fbo, vp, outs, ins, fmt, dirty, mip, nl, vps, fbos, gvps, gfbos, sh, bl, off, st, tc⟩ := u
  simp only at hfbo hmip hne hall
  subst hmip
  obtain ⟨p, rest, hout⟩ := List.exists_cons_of_ne_nil hne
  obtain ⟨k, slot⟩ := p
  obtain ⟨t, hslot, -, hw, hh⟩ := hall (k, slot) (by simp [hout])
  simp only at hslot
  subst hslot
  have hb := buildLevels_uniform w h (1 + P.floorLog2 (max w h)).toNat 0
    ⟨fbo, vp, outs, ins, fmt, dirty, true, 1 + P.floorLog2 (max w h), [], [], gvps, gfbos,
      sh, bl, off, st, tc⟩ hall
  simp only [List.nil_append, ← List.range_eq_range'] at hb
  simp only [checkIOMipmappedData, hfbo, hne]
  subst hout
  simp only [hw, hh]
  simpa using hb

theorem checkIOMipmappedData_eq (P : Platform) (u : UnitInOut) :
    checkIOMipmappedData P u =
      if u.mFBO.isSome ∧ u.mOutputTex.length > 0 ∧ UnitInOut.mbMipmappedIO u = true then
        match u.mOutputTex with
        | [] => some u
        | (_, none) :: _ => some u
        | (_, some first) :: _ =>
          (levelTables first.textureWidth first.textureHeight u.mOutputTex
            (1 + P.floorLog2 (max first.textureWidth first.textureHeight)).toNat 0 [] []).map
            fun t => { u with
              mNumLevels := 1 + P.floorLog2 (max first.textureWidth first.textureHeight)
              mIOMipmapViewport := t.1
              mIOMipmapFBO := t.2 }
      else some u := by
  unfold checkIOMipmappedData
  split
  · split
    · rfl
    · rfl
    · simp only [buildLevels_eq]
  · rfl

theorem checkIOMipmappedData_idem (P : Platform) (u v : UnitInOut)
    (h : checkIOMipmappedData P u = some v) : checkIOMipmappedData P v = some v := by
  obtain ⟨fbo, vp, outs, ins, fmt, dirty, mip, nl, vps, fbos, gvps, gfbos, sh, bl, off, st, tc⟩ := u
  rw [checkIOMipmappedData_eq] at h
  simp only at h
  by_cases hg : fbo.isSome = true ∧ outs.length > 0 ∧ mip = true
  · rw [if_pos hg] at h
    rcases outs with _ | ⟨⟨k, slot⟩, rest⟩
    · injection h with h; subst h
      rw [checkIOMipmappedData_eq]; simp
    · cases slot with
      | none =>
        injection h with h; subst h
        rw [checkIOMipmappedData_eq]; simp
      | some first =>
        simp only [Option.map_eq_some'] at h
        obtain ⟨t, ht, hv⟩ := h
        subst hv
        rw [checkIOMipmappedData_eq]
        simp only [hg, and_self, if_true, ht, Option.map_some']
  · rw [if_neg hg] at h
    injection h with h; subst h
    rw [checkIOMipmappedData_eq]; simp only [hg, if_false]

theorem checkIOMipmappedData_dirty (P : Platform) (u : UnitInOut) (b : Bool) :
    checkIOMipmappedData P { u with mbDirtyOutputTextures := b } =
      (checkIOMipmappedData P u).map fun v => { v with mbDirtyOutputTextures := b } := by
  obtain ⟨fbo, vp, outs, ins, fmt, dirty, mip, nl, vps, fbos, gvps, gfbos, sh, bl, off, st, tc⟩ := u
  simp only [checkIOMipmappedData_eq]
  split
  · split
    · rfl
    · rfl
    · simp [Option.map_map, Function.comp_def]
  · rfl

theorem checkIOMipmappedData_frame (P : Platform) (u v : UnitInOut)
    (h : checkIOMipmappedData P u = some v) :
    v = { u with mNumLevels := v.mNumLevels, mIOMipmapViewport := v.mIOMipmapViewport,
                 mIOMipmapFBO := v.mIOMipmapFBO } := by
  rw [checkIOMipmappedData_eq] at h
  split at h
  · split at h
    · injection h with h; subst h; rfl
    · injection h with h; subst h; rfl
    · simp only [Option.map_eq_some'] at h
      obtain ⟨t, -, hv⟩ := h
      subst hv; rfl
  · injection h with h; subst h; rfl

theorem checkIOMipmappedData_isSome (P : Platform) (u : UnitInOut) (h2d : All2D u.mOutputTex) :
    ∃ v, checkIOMipmappedData P u = some v := by
  rw [checkIOMipmappedData_eq]
  split
  · split
    · exact ⟨_, rfl⟩
    · exact ⟨_, rfl⟩
    · rename_i k first rest hout
      obtain ⟨t, ht⟩ := levelTables_isSome first.textureWidth first.textureHeight
        u.mOutputTex h2d
        (1 + P.floorLog2 (max first.textureWidth first.textureHeight)).toNat 0 [] []
      exact ⟨_, by rw [ht]; rfl⟩
  · exact ⟨_, rfl⟩

/-! ## Lemmas: allocation of the output textures -/

theorem assignLoop_all2D (P : Platform) (u : UnitInOut) :
    ∀ (outs : TextureMap) (i : Nat) (fbo : FrameBufferObject) (c : Nat), All2D outs →
      assignLoop P u outs i fbo c = some (outs, attachIds (outputIds outs) i fbo, c)
  | [], _, _, _, _ => by simp [assignLoop, outputIds, attachIds]
  | (k, slot) :: rest, i, fbo, c, h => by
    obtain ⟨t, hslot, ht⟩ := h (k, slot) (List.mem_cons_self _ _)
    simp only at hslot
    subst hslot
    have hrest : All2D rest := fun p hp => h p (List.mem_cons_of_mem _ hp)
    simp [assignLoop, dynCastTexture2D, ht, assignLoop_all2D P u rest _ _ _ hrest, outputIds,
      attachIds]

theorem assignLoop_result (P : Platform) (u : UnitInOut) :
    ∀ (outs : TextureMap) (i : Nat) (fbo : FrameBufferObject) (c : Nat)
      (outs' : TextureMap) (fbo' : FrameBufferObject) (c' : Nat),
      assignLoop P u outs i fbo c = some (outs', fbo', c') →
        All2D outs' ∧ fbo' = attachIds (outputIds outs') i fbo
  | [], _, _, _, outs', fbo', c', h => by
    simp only [assignLoop, Option.some.injEq, Prod.mk.injEq] at h
    obtain ⟨rfl, rfl, rfl⟩ := h
    exact ⟨fun p hp => absurd hp (List.not_mem_nil p), rfl⟩
  | (k, slot) :: rest, i, fbo, c, outs', fbo', c', h => by
    simp only [assignLoop] at h
    split at h
    · rename_i mTex hcast
      split at h
      · exact absurd h (by simp)
      · rename_i r f cc hrec
        simp only [Option.some.injEq, Prod.mk.injEq] at h
        obtain ⟨rfl, rfl, rfl⟩ := h
        obtain ⟨h2d, hf⟩ := assignLoop_result P u rest _ _ _ _ _ _ hrec
        have hs : slot = some mTex ∧ mTex.is2D = true := by
          cases slot with
          | none => simp [dynCastTexture2D] at hcast
          | some t =>
            simp only [dynCastTexture2D] at hcast
            split at hcast
            · rename_i h2; injection hcast with hcast; subst hcast; exact ⟨rfl, h2⟩
            · exact absurd hcast (by simp)
        obtain ⟨rfl, hm⟩ := hs
        refine ⟨?_, ?_⟩
        · intro p hp
          rcases List.mem_cons.1 hp with rfl | hp
          · exact ⟨mTex, rfl, hm⟩
          · exact h2d p hp
        · simp [outputIds, attachIds] at hf ⊢
          exact hf
    · split at h
      · exact absurd h (by simp)
      · rename_i vp hvp
        split at h
        · exact absurd h (by simp)
        · rename_i r f cc hrec
          simp only [Option.some.injEq, Prod.mk.injEq] at h
          obtain ⟨rfl, rfl, rfl⟩ := h
          obtain ⟨h2d, hf⟩ := assignLoop_result P u rest _ _ _ _ _ _ hrec
          refine ⟨?_, ?_⟩
          · intro p hp
            rcases List.mem_cons.1 hp with rfl | hp
            · exact ⟨_, rfl, rfl⟩
            · exact h2d p hp
          · simp [outputIds, attachIds] at hf ⊢
            exact hf

theorem assignLoop_length (P : Platform) (u : UnitInOut) :
    ∀ (outs : TextureMap) (i : Nat) (fbo : FrameBufferObject) (c : Nat)
      (outs' : TextureMap) (fbo' : FrameBufferObject) (c' : Nat),
      assignLoop P u outs i fbo c = some (outs', fbo', c') → outs'.length = outs.length
  | [], _, _, _, outs', fbo', c', h => by
    simp only [assignLoop, Option.some.injEq, Prod.mk.injEq] at h
    obtain ⟨rfl, -, -⟩ := h
    rfl
  | (k, slot) :: rest, i, fbo, c, outs', fbo', c', h => by
    simp only [assignLoop] at h
    split at h
    · split at h
      · exact absurd h (by simp)
      · rename_i r f cc hrec
        simp only [Option.some.injEq, Prod.mk.injEq] at h
        obtain ⟨rfl, -, -⟩ := h
        simp [assignLoop_length P u rest _ _ _ _ _ _ hrec]
    · split at h
      · exact absurd h (by simp)
      · split at h
        · exact absurd h (by simp)
        · rename_i r f cc hrec
          simp only [Option.some.injEq, Prod.mk.injEq] at h
          obtain ⟨rfl, -, -⟩ := h
          simp [assignLoop_length P u rest _ _ _ _ _ _ hrec]

theorem assignLoop_slots (P : Platform) (u : UnitInOut) (vp : Viewport)
    (hvp : u.mViewport = some vp) :
    ∀ (outs : TextureMap) (i : Nat) (fbo : FrameBufferObject) (c : Nat),
      ∃ outs' fbo' c', assignLoop P u outs i fbo c = some (outs', fbo', c') ∧ c ≤ c' ∧
        outs'.length = outs.length ∧
        ∀ (j : Nat) (k : Int) (slot : Option Texture), outs[j]? = some (k, slot) →
          ∃ t, outs'[j]? = some (k, some t) ∧ t.is2D = true ∧
            (∀ t0, dynCastTexture2D slot = some t0 → t = t0) ∧
            (dynCastTexture2D slot = none →
              t = newOutputTexture P u vp t.id ∧ c ≤ t.id ∧ t.id < c')
  | [], i, fbo, c => ⟨[], fbo, c, by simp [assignLoop]⟩
  | (k0, slot0) :: rest, i, fbo, c => by
    cases hcast : dynCastTexture2D slot0 with
    | some mTex =>
      obtain ⟨r, f, cc, hrec, hle, hlen, hpt⟩ := assignLoop_slots P u vp hvp rest (i + 1)
        (fbo.setAttachment (GL_COLOR_ATTACHMENT0_EXT + i) ⟨mTex.id, 0⟩) c
      refine ⟨(k0, slot0) :: r, f, cc, by simp [assignLoop, hcast, hrec], hle, by simp [hlen], ?_⟩
      intro j k slot hj
      cases j with
      | zero =>
        simp only [List.getElem?_cons_zero, Option.some.injEq, Prod.mk.injEq] at hj
        obtain ⟨rfl, rfl⟩ := hj
        have hs : slot0 = some mTex ∧ mTex.is2D = true := by
          cases slot0 with
          | none => simp [dynCastTexture2D] at hcast
          | some t =>
            simp only [dynCastTexture2D] at hcast
            split at hcast
            · rename_i h2; injection hcast with hcast; subst hcast; exact ⟨rfl, h2⟩
            · exact absurd hcast (by simp)
        obtain ⟨rfl, hm⟩ := hs
        exact ⟨mTex, by simp, hm, fun t0 h0 => by rw [hcast] at h0; injection h0,
          fun h0 => by rw [hcast] at h0; exact absurd h0 (by simp)⟩
      | succ j =>
        simp only [List.getElem?_cons_succ] at hj ⊢
        exact hpt j k slot hj
    | none =>
      obtain ⟨r, f, cc, hrec, hle, hlen, hpt⟩ := assignLoop_slots P u vp hvp rest (i + 1)
        (fbo.setAttachment (GL_COLOR_ATTACHMENT0_EXT + i) ⟨(newOutputTexture P u vp c).id, 0⟩)
        (c + 1)
      refine ⟨(k0, some (newOutputTexture P u vp c)) :: r, f, cc,
        by simp [assignLoop, hcast, hvp, hrec], by omega, by simp [hlen], ?_⟩
      intro j k slot hj
      cases j with
      | zero =>
        simp only [List.getElem?_cons_zero, Option.some.injEq, Prod.mk.injEq] at hj
        obtain ⟨rfl, rfl⟩ := hj
        refine ⟨newOutputTexture P u vp c, by simp, rfl, ?_, ?_⟩
        · intro t0 h0; rw [hcast] at h0; exact absurd h0 (by simp)
        · intro _
          exact ⟨rfl, le_refl _, by simp only [newOutputTexture]; omega⟩
      | succ j =>
        simp only [List.getElem?_cons_succ] at hj ⊢
        obtain ⟨t, h1, h2, h3, h4⟩ := hpt j k slot hj
        exact ⟨t, h1, h2, h3, fun hn => by
          obtain ⟨e, l1, l2⟩ := h4 hn
          exact ⟨e, by omega, l2⟩⟩

theorem assignOutputTexture_unfold (P : Platform) (u s : UnitInOut) (fbo : FrameBufferObject)
    (hfbo : u.mFBO = some fbo) (h : assignOutputTexture P u = some s) :
    ∃ outs' fbo' c' u2,
      assignLoop P u u.mOutputTex 0 fbo u.texturesCreated = some (outs', fbo', c') ∧
      checkIOMipmappedData P { u with
        mOutputTex := outs', mFBO := some fbo', texturesCreated := c',
        mMipmapFBO := [], mMipmapViewport := [] } = some u2 ∧
      s = { u2 with mbDirtyOutputTextures := false } := by
  simp only [assignOutputTexture, hfbo] at h
  split at h
  · exact absurd h (by simp)
  · rename_i outs' fbo' c' hloop
    split at h
    · exact absurd h (by simp)
    · rename_i u2 hcheck
      injection h with h
      exact ⟨outs', fbo', c', u2, hloop, hcheck, h.symm⟩

theorem assignOutputTexture_idem (P : Platform) (u s1 : UnitInOut)
    (h : assignOutputTexture P u = some s1) : assignOutputTexture P s1 = some s1 := by
  obtain ⟨fbo, vp, outs, ins, fmt, dirty, mip, nl, vps, fbos, gvps, gfbos, sh, bl, off, st, tc⟩ := u
  cases fbo with
  | none =>
    simp only [assignOutputTexture, Option.some.injEq] at h
    subst h
    simp [assignOutputTexture]
  | some fbo =>
    simp only [assignOutputTexture] at h
    split at h
    · exact absurd h (by simp)
    · rename_i outs' fbo' c' hloop
      split at h
      · exact absurd h (by simp)
      · rename_i u2 hcheck
        injection h with h
        obtain ⟨h2d, hfbo'⟩ := assignLoop_result P _ _ _ _ _ _ _ _ hloop
        have hframe := checkIOMipmappedData_frame P _ _ hcheck
        have hidem := checkIOMipmappedData_idem P _ _ hcheck
        have hdirty := checkIOMipmappedData_dirty P u2 false
        rw [hidem] at hdirty
        obtain ⟨nl2, vps2, fbos2, hnl, hvps, hfbos⟩ :
            ∃ a b c, u2.mNumLevels = a ∧ u2.mIOMipmapViewport = b ∧ u2.mIOMipmapFBO = c :=
          ⟨_, _, _, rfl, rfl, rfl⟩
        rw [hnl, hvps, hfbos] at hframe
        subst hframe
        subst h
        simp only [assignOutputTexture]
        rw [assignLoop_all2D P _ outs' 0 fbo' c' h2d, attachIds_fixed _ 0 fbo fbo' hfbo']
        simp only
        simp only [Option.map_some'] at hdirty
        rw [hdirty]

/-! ## Lemmas: render -/

theorem drawCount_drawPass (u : UnitInOut) (fbo : FrameBufferObject) (vp : Viewport)
    (level : Int) : drawCount (drawPass u fbo vp level) = 1 := by
  unfold drawCount drawPass
  cases u.mShader <;> by_cases hb : (u.mbUseBlendMode = true ∧ u.mbOfflinePPU = false) <;>
    simp [hb, List.count_cons]

theorem drawPass_targets (u : UnitInOut) (fbo : FrameBufferObject) (vp : Viewport)
    (level : Int) :
    (∀ vp', GLCommand.applyViewport vp' ∈ drawPass u fbo vp level ↔ vp' = vp) ∧
    (∀ fbo', GLCommand.applyFBO fbo' ∈ drawPass u fbo vp level ↔ fbo' = fbo) ∧
    (∀ sh v, GLCommand.shaderSet sh "g_MipmapLevel" v ∈ drawPass u fbo vp level ↔
      (u.mShader = some sh ∧ v = f32 level)) ∧
    (∀ sh v, GLCommand.shaderSet sh "g_ViewportWidth" v ∈ drawPass u fbo vp level ↔
      (u.mShader = some sh ∧ v = f32 vp.width)) ∧
    (∀ sh v, GLCommand.shaderSet sh "g_ViewportHeight" v ∈ drawPass u fbo vp level ↔
      (u.mShader = some sh ∧ v = f32 vp.height)) := by
  unfold drawPass
  cases hsh : u.mShader <;>
    by_cases hb : (u.mbUseBlendMode = true ∧ u.mbOfflinePPU = false) <;>
    simp [hb] <;> intro sh <;> exact eq_comm

theorem drawPass_targets_exact (u : UnitInOut) (fbo : FrameBufferObject) (vp : Viewport)
    (level : Int) (hl : f32 level = level) (hw : f32 vp.width = vp.width)
    (hh : f32 vp.height = vp.height) :
    (∀ vp', GLCommand.applyViewport vp' ∈ drawPass u fbo vp level ↔ vp' = vp) ∧
    (∀ fbo', GLCommand.applyFBO fbo' ∈ drawPass u fbo vp level ↔ fbo' = fbo) ∧
    (∀ sh v, GLCommand.shaderSet sh "g_MipmapLevel" v ∈ drawPass u fbo vp level ↔
      (u.mShader = some sh ∧ v = level)) ∧
    (∀ sh v, GLCommand.shaderSet sh "g_ViewportWidth" v ∈ drawPass u fbo vp level ↔
      (u.mShader = some sh ∧ v = vp.width)) ∧
    (∀ sh v, GLCommand.shaderSet sh "g_ViewportHeight" v ∈ drawPass u fbo vp level ↔
      (u.mShader = some sh ∧ v = vp.height)) := by
  have h := drawPass_targets u fbo vp level
  rw [hl, hw, hh] at h
  exact h

theorem doRender_valid (u : UnitInOut) (fbo : FrameBufferObject) (vp : Viewport)
    (level : Int) (hs : u.sStateValid = true) (hfbo : u.mFBO = some fbo)
    (hvp : u.mViewport = some vp) :
    doRender u level = drawPass u fbo vp (if level < 0 then 0 else level) := by
  simp [doRender, drawPass, hs, hfbo, hvp]

theorem doRender_invalid (u : UnitInOut) (level : Int)
    (h : u.sStateValid = false ∨ u.mFBO = none ∨ u.mViewport = none) :
    doRender u level = [] := by
  rcases h with h | h | h
  · simp [doRender, h]
  · simp [doRender, h]
  · unfold doRender
    split
    · rfl
    · rw [h]
      cases u.mFBO <;> rfl

theorem renderLevels_spec :
    ∀ (n i : Nat) (cur : UnitInOut) (tr : List GLCommand),
      cur.sStateValid = true →
      i + n ≤ cur.mIOMipmapViewport.length → i + n ≤ cur.mIOMipmapFBO.length →
      ∃ vp fbo, renderLevels n i cur tr =
        some ({ cur with mViewport := vp, mFBO := fbo },
          tr ++ (List.range' i n).flatMap (levelPass cur))
  | 0, i, cur, tr, _, _, _ => ⟨cur.mViewport, cur.mFBO, by simp [renderLevels]⟩
  | n + 1, i, cur, tr, hs, hv, hf => by
    have hiv : i < cur.mIOMipmapViewport.length := by omega
    have hif : i < cur.mIOMipmapFBO.length := by omega
    obtain ⟨cur1, hcur1⟩ : ∃ cur1 : UnitInOut, cur1 =
      { cur with mViewport := some cur.mIOMipmapViewport[i], mFBO := some cur.mIOMipmapFBO[i] } :=
      ⟨_, rfl⟩
    have hd : doRender cur1 i = levelPass cur i := by
      rw [doRender_valid cur1 cur.mIOMipmapFBO[i] cur.mIOMipmapViewport[i] _
        (by rw [hcur1]; exact hs) (by rw [hcur1]) (by rw [hcur1])]
      have hi0 : ¬ ((i : Int) < 0) := by omega
      rw [if_neg hi0]
      simp [levelPass, List.getElem?_eq_getElem hiv, List.getElem?_eq_getElem hif, drawPass,
        hcur1]
    have hl : levelPass cur1 = levelPass cur := by
      funext j; simp [levelPass, drawPass, hcur1]
    obtain ⟨vp', fbo', ih⟩ := renderLevels_spec n (i + 1) cur1 (tr ++ doRender cur1 i)
      (by rw [hcur1]; exact hs)
      (by rw [hcur1]; simp only; omega) (by rw [hcur1]; simp only; omega)
    refine ⟨vp', fbo', ?_⟩
    simp only [renderLevels, List.getElem?_eq_getElem hiv, List.getElem?_eq_getElem hif]
    rw [← hcur1, ih, hd, hl]
    simp [List.range'_succ, List.flatMap, hcur1]

theorem renderLevels_frame :
    ∀ (n i : Nat) (cur cur' : UnitInOut) (tr tr' : List GLCommand),
      renderLevels n i cur tr = some (cur', tr') →
        ∃ vp fbo, cur' = { cur with mViewport := vp, mFBO := fbo }
  | 0, _, cur, cur', tr, tr', h => by
    simp only [renderLevels, Option.some.injEq, Prod.mk.injEq] at h
    exact ⟨cur.mViewport, cur.mFBO, h.1.symm⟩
  | n + 1, i, cur, cur', tr, tr', h => by
    simp only [renderLevels] at h
    split at h
    · obtain ⟨vp, fbo, he⟩ := renderLevels_frame n (i + 1) _ _ _ _ h
      exact ⟨vp, fbo, he⟩
    · exact absurd h (by simp)

theorem render_mipmapped (s : UnitInOut) (lvl : Int) (hlvl : lvl < 0)
    (hmip : UnitInOut.mbMipmappedIO s = true) (hs : s.sStateValid = true)
    (hv : s.mNumLevels.toNat ≤ s.mIOMipmapViewport.length)
    (hf : s.mNumLevels.toNat ≤ s.mIOMipmapFBO.length) :
    render s lvl = some (s, (List.range s.mNumLevels.toNat).flatMap (levelPass s)) := by
  obtain ⟨vp, fbo, h⟩ := renderLevels_spec s.mNumLevels.toNat 0 s [] hs (by omega) (by omega)
  have h0 : ¬ lvl ≥ 0 := by omega
  unfold render
  rw [if_neg h0, if_pos hmip]
  simp only [h, List.nil_append, List.range_eq_range']

theorem drawCount_levels (s : UnitInOut) :
    ∀ n : Nat, n ≤ s.mIOMipmapViewport.length → n ≤ s.mIOMipmapFBO.length →
      drawCount ((List.range n).flatMap (levelPass s)) = n
  | 0, _, _ => by simp [drawCount]
  | n + 1, hv, hf => by
    have ih := drawCount_levels s n (by omega) (by omega)
    have hiv : n < s.mIOMipmapViewport.length := by omega
    have hif : n < s.mIOMipmapFBO.length := by omega
    have hl : drawCount (levelPass s n) = 1 := by
      simp only [levelPass, List.getElem?_eq_getElem hiv, List.getElem?_eq_getElem hif]
      exact drawCount_drawPass _ _ _ _
    simp only [drawCount, List.flatMap] at ih hl ⊢
    simp [List.range_succ, ih, hl]

theorem render_frame_core (u u' : UnitInOut) (lvl : Int) (tr : List GLCommand)
    (h : render u lvl = some (u', tr)) : u' = u := by
  unfold render at h
  split at h
  · simp only [Option.some.injEq, Prod.mk.injEq] at h
    exact h.1.symm
  · split at h
    · split at h
      · exact absurd h (by simp)
      · rename_i u1 tr1 hl
        obtain ⟨vp, fbo, he⟩ := renderLevels_frame _ _ _ _ _ _ hl
        simp only [Option.some.injEq, Prod.mk.injEq] at h
        rw [← h.1, he]
    · simp only [Option.some.injEq, Prod.mk.injEq] at h
      exact h.1.symm

theorem levelFBO_ne_attachIds (ids : List Nat) (L : Nat) (fbo : FrameBufferObject)
    (hne : ids ≠ []) (hL : 1 ≤ L) : levelFBO ids L ≠ attachIds ids 0 fbo := by
  obtain ⟨id, rest, rfl⟩ := List.exists_cons_of_ne_nil hne
  intro h
  have h1 := attachIds_lookup (id :: rest) 0 fbo 0 id (by simp)
  rw [← h] at h1
  simp [levelFBO, FrameBufferObject.getAttachment, lookupAttachment, List.enumFrom] at h1
  omega

theorem outputIds_ne_nil (outs : TextureMap) (h2d : All2D outs) (hne : outs ≠ []) :
    outputIds outs ≠ [] := by
  obtain ⟨p, rest, rfl⟩ := List.exists_cons_of_ne_nil hne
  obtain ⟨t, ht, -⟩ := h2d p (List.mem_cons_self _ _)
  simp [outputIds, ht]

/-! ## The claims -/

/-- Claim C1, what the code does instead.  The level count is
`1 + floor(log((float)max(w, h)) / (float)M_LN2)`, and `(float)M_LN2` is not
`ln 2`.  On a platform whose quotient at `256` is the exact one up to an error
of `10^-8` (a `log` in double precision), two outputs of `256 x 256` give `8`
levels, not `1 + floor(log2 256) = 9`, and the last level, level 7, has a
viewport of `2 x 2`, not `1 x 1`.  On a platform whose `log` is rounded to the
nearest `float` (`n / 2^19` is the `float` nearest to `log(16777215)`), an
output of `16777215 x 1` gives `25` levels, not `1 + floor(log2 16777215) = 24`. -/
theorem checkIOMipmappedData_level_count (P : Platform) :
    (∀ q : ℝ, |q - Real.log 256 / (ln2f : ℝ)| ≤ 1 / 10 ^ 8 → P.floorLog2 256 = ⌊q⌋ →
      ∃ s, checkIOMipmappedData P mipmapUnit256 = some s ∧ s.mNumLevels = 8 ∧
        s.mNumLevels ≠ 1 + (ilog2 256 : Int) ∧
        s.mIOMipmapViewport.length = 8 ∧ s.mIOMipmapViewport[7]? = some ⟨0, 0, 2, 2⟩) ∧
    (∀ n : ℤ, |(n : ℝ) / 2 ^ 19 - Real.log 16777215| ≤ 1 / 2 ^ 20 →
      P.floorLog2 16777215 = ⌊(n : ℝ) / 2 ^ 19 / (ln2f : ℝ)⌋ →
      ∃ s, checkIOMipmappedData P mipmapUnit16M = some s ∧ s.mNumLevels = 25 ∧
        s.mNumLevels ≠ 1 + (ilog2 16777215 : Int) ∧ s.mIOMipmapViewport.length = 25) := by
  constructor
  · intro q hq hP
    rw [floor_near_log_256 q hq] at hP
    have hall : AllOutputs 256 256 mipmapUnit256.mOutputTex := by
      intro p hp
      simp [mipmapUnit256, sampleUnit] at hp
      rcases hp with rfl | rfl <;> exact ⟨_, rfl, rfl, rfl, rfl⟩
    have h := checkIOMipmappedData_uniform P mipmapUnit256 256 256 (by decide) (by decide)
      (by decide) hall
    rw [max_self, hP] at h
    refine ⟨_, h, by decide, by decide, by decide, by decide⟩
  · intro n hn hP
    rw [float_near_log_16777215 n hn, floor_float_quotient] at hP
    have hall : AllOutputs 16777215 1 mipmapUnit16M.mOutputTex := by
      intro p hp
      simp [mipmapUnit16M, sampleUnit] at hp
      subst hp
      exact ⟨_, rfl, rfl, rfl, rfl⟩
    have h := checkIOMipmappedData_uniform P mipmapUnit16M 16777215 1 (by decide) (by decide)
      (by decide) hall
    have hm : max (16777215 : Int) 1 = 16777215 := by decide
    rw [hm, hP] at h
    refine ⟨_, h, by decide, by decide, by decide⟩

/-- Witness for C1: the platform with a `log` in double precision at
`256 x 256`, the platform with a `log` in single precision at `16777215 x 1`. -/
theorem checkIOMipmappedData_level_count_witness :
    (∃ s, checkIOMipmappedData doubleLogPlatform mipmapUnit256 = some s ∧ s.mNumLevels = 8 ∧
        s.mNumLevels ≠ 1 + (ilog2 256 : Int) ∧
        s.mIOMipmapViewport.length = 8 ∧ s.mIOMipmapViewport[7]? = some ⟨0, 0, 2, 2⟩) ∧
    (∃ s, checkIOMipmappedData singleLogPlatform mipmapUnit16M = some s ∧ s.mNumLevels = 25 ∧
        s.mNumLevels ≠ 1 + (ilog2 16777215 : Int) ∧ s.mIOMipmapViewport.length = 25) :=
  ⟨(checkIOMipmappedData_level_count doubleLogPlatform).1 (Real.log 256 / (ln2f : ℝ))
      (by simp) (by rw [floor_log_256_div_ln2f]; decide),
    (checkIOMipmappedData_level_count singleLogPlatform).2 8721810 near_log_16777215
      (by rw [floor_float_quotient]; decide)⟩

/-- Claim C2, as amended.  For a unit in mipmap mode with a render target and
at least one output slot, whose slots all hold 2D textures of base size `w x h`
with `1 <= w, h <= 2^24` (sizes that `float(..)` represents exactly),
`checkIOMipmappedData` returns, the viewport table and the render-target table
each have exactly `mNumLevels` entries, and for every level `L < mNumLevels`
entry `L` is the viewport `(0, 0, max(1, w / 2^L), max(1, h / 2^L))` paired
with the render target that attaches every output texture, the same objects in
slot order, at mip level `L`. -/
theorem checkIOMipmappedData_table (P : Platform) (u : UnitInOut) (w h : Int)
    (hw1 : 1 ≤ w) (hh1 : 1 ≤ h) (hw : w ≤ 2 ^ 24) (hh : h ≤ 2 ^ 24)
    (hfbo : u.mFBO.isSome = true) (hmip : UnitInOut.mbMipmappedIO u = true)
    (hne : u.mOutputTex ≠ []) (hall : AllOutputs w h u.mOutputTex) :
    ∃ u', checkIOMipmappedData P u = some u' ∧
      (u'.mIOMipmapViewport.length : Int) = u'.mNumLevels ∧
      (u'.mIOMipmapFBO.length : Int) = u'.mNumLevels ∧
      ∀ L : Nat, (L : Int) < u'.mNumLevels →
        u'.mIOMipmapViewport[L]? = some ⟨0, 0, max 1 (w / 2 ^ L), max 1 (h / 2 ^ L)⟩ ∧
        u'.mIOMipmapFBO[L]? = some (levelFBO (outputIds u.mOutputTex) L) := by
  have hpos : 0 ≤ 1 + P.floorLog2 (max w h) := by
    have := P.floorLog2_nonneg (max w h) (le_max_of_le_left hw1)
    omega
  refine ⟨_, checkIOMipmappedData_uniform P u w h hfbo hmip hne hall, ?_, ?_, ?_⟩
  · simp [Int.toNat_of_nonneg hpos]
  · simp [Int.toNat_of_nonneg hpos]
  · intro L hL
    have hL' : L < (1 + P.floorLog2 (max w h)).toNat := by
      simp only at hL
      omega
    simp [List.getElem?_map, List.getElem?_range hL',
      levelViewport_exact w h L (by omega) (by omega) hw hh]

/-- Witness for C2: two outputs of `256 x 256`. -/
theorem checkIOMipmappedData_table_witness :
    ∃ u', checkIOMipmappedData exactPlatform mipmapUnit256 = some u' ∧
      (u'.mIOMipmapViewport.length : Int) = u'.mNumLevels ∧
      (u'.mIOMipmapFBO.length : Int) = u'.mNumLevels ∧
      ∀ L : Nat, (L : Int) < u'.mNumLevels →
        u'.mIOMipmapViewport[L]? = some ⟨0, 0, max 1 (256 / 2 ^ L), max 1 (256 / 2 ^ L)⟩ ∧
        u'.mIOMipmapFBO[L]? = some (levelFBO (outputIds mipmapUnit256.mOutputTex) L) :=
  checkIOMipmappedData_table exactPlatform mipmapUnit256 256 256 (by decide) (by decide)
    (by decide) (by decide) (by decide) (by decide) (by decide)
    (by
      intro p hp
      simp [mipmapUnit256, sampleUnit] at hp
      rcases hp with rfl | rfl <;> exact ⟨_, rfl, rfl, rfl, rfl⟩)

/-- Counterexample to C2 as stated: for a single output of size `16777217 x 1`
the table has a level 0 and its viewport is `16777216` wide, not
`max(1, 16777217 / 2^0)`, because `float(16777217)` is `16777216`. -/
theorem checkIOMipmappedData_table_counterexample :
    ∃ u', checkIOMipmappedData exactPlatform wideUnit = some u' ∧
      UnitInOut.mbMipmappedIO wideUnit = true ∧
      AllOutputs 16777217 1 wideUnit.mOutputTex ∧
      (0 : Int) < u'.mNumLevels ∧
      u'.mIOMipmapViewport[0]? = some ⟨0, 0, 16777216, 1⟩ ∧
      u'.mIOMipmapViewport[0]? ≠
        some ⟨0, 0, max 1 (16777217 / 2 ^ 0), max 1 (1 / 2 ^ 0)⟩ := by
  refine ⟨_, rfl, rfl, ?_, by decide, by decide, by decide⟩
  intro p hp
  simp [wideUnit, sampleUnit] at hp
  subst hp
  exact ⟨_, rfl, rfl, rfl, rfl⟩

/-- Claim C3, what the code does instead.  For a unit in mipmap mode with a
render target whose slots all hold 2D textures, the first of size `w x h` with
`max(w, h) >= 1`, and some slot of another size, `checkIOMipmappedData` returns
with `mNumLevels` set, the viewport of level 0 left in the viewport table and an
empty render-target table: the early `return` comes after the viewport of the
level was stored. -/
theorem checkIOMipmappedData_mismatch (P : Platform) (u : UnitInOut) (k : Int)
    (first : Texture) (rest : TextureMap)
    (hfbo : u.mFBO.isSome = true) (hmip : UnitInOut.mbMipmappedIO u = true)
    (hout : u.mOutputTex = (k, some first) :: rest) (h2d : All2D u.mOutputTex)
    (hdim : 1 ≤ max first.textureWidth first.textureHeight)
    (hmis : SomeOtherSize first.textureWidth first.textureHeight u.mOutputTex) :
    checkIOMipmappedData P u = some { u with
      mNumLevels := 1 + P.floorLog2 (max first.textureWidth first.textureHeight)
      mIOMipmapViewport := [levelViewport first.textureWidth first.textureHeight 0]
      mIOMipmapFBO := [] } := by
  obtain ⟨fbo, vp, outs, ins, fmt, dirty, mip, nl, vps, fbos, gvps, gfbos, sh, bl, off, st, tc⟩ := u
  simp only at hfbo hmip hout h2d hmis
  subst hmip hout
  have hpos := P.floorLog2_nonneg _ hdim
  obtain ⟨n, hn⟩ :
      ∃ n, (1 + P.floorLog2 (max first.textureWidth first.textureHeight)).toNat = n + 1 :=
    ⟨(P.floorLog2 (max first.textureWidth first.textureHeight)).toNat, by omega⟩
  simp [checkIOMipmappedData, hfbo, hn, buildLevels,
    attachLevel_mismatch _ _ 0 _ h2d hmis, levelViewport]

/-- Witness for C3: outputs of `256 x 256` and `128 x 128` leave one viewport
and no render target in the tables. -/
theorem checkIOMipmappedData_mismatch_witness :
    checkIOMipmappedData exactPlatform mismatchUnit = some { mismatchUnit with
      mNumLevels := 9
      mIOMipmapViewport := [⟨0, 0, 256, 256⟩]
      mIOMipmapFBO := [] } :=
  checkIOMipmappedData_mismatch exactPlatform mismatchUnit 0 (sampleTexture 10 256 256)
    [(1, some (sampleTexture 11 128 128))] (by decide) (by decide) rfl
    (by
      intro p hp
      simp [mismatchUnit, sampleUnit] at hp
      rcases hp with rfl | rfl <;> exact ⟨_, rfl, rfl⟩)
    (by decide)
    ⟨(1, some (sampleTexture 11 128 128)), by simp [mismatchUnit, sampleUnit],
      sampleTexture 11 128 128, rfl, Or.inl (by decide)⟩

/-- Claim C4.  `assignOutputTexture` is idempotent: when a call returned the
unit `s1`, a second call on `s1` returns `s1` again; in particular it creates no
texture and every output slot holds the very texture object it held after the
first call. -/
theorem assignOutputTexture_idempotent (P : Platform) (u s1 : UnitInOut)
    (h : assignOutputTexture P u = some s1) :
    ∃ s2, assignOutputTexture P s1 = some s2 ∧ s2 = s1 ∧
      s2.texturesCreated = s1.texturesCreated ∧ s2.mOutputTex = s1.mOutputTex :=
  ⟨s1, assignOutputTexture_idem P u s1 h, rfl, rfl, rfl⟩

/-- Witness for C4: a `128 x 128` `GL_RGBA16F_ARB` render target with one empty
slot; the first call creates one texture, the second none. -/
theorem assignOutputTexture_idempotent_witness :
    ∃ s1, assignOutputTexture exactPlatform nullSlotUnit = some s1 ∧
      s1.texturesCreated = nullSlotUnit.texturesCreated + 1 ∧
      ∃ s2, assignOutputTexture exactPlatform s1 = some s2 ∧ s2 = s1 ∧
        s2.texturesCreated = s1.texturesCreated ∧ s2.mOutputTex = s1.mOutputTex :=
  ⟨_, rfl, by decide, assignOutputTexture_idempotent exactPlatform nullSlotUnit _ rfl⟩

/-- Claim C5, as amended.  For a unit with a render target and a viewport,
`assignOutputTexture` returns; afterwards every slot of the output map holds a
2D texture, a slot that was null holds a texture created by the call (its
identity is one of those issued during the call) of the viewport's width and
height and of the unit's output internal format, and the texture of the `i`-th
slot (in the order of the map) is the colour attachment `i` of the render
target, at mip level 0: the attachment point is the position of the slot in the
map, which is the key of the slot when the keys are `0, 1, ...`. -/
theorem assignOutputTexture_slots (P : Platform) (u : UnitInOut) (fbo : FrameBufferObject)
    (vp : Viewport) (hfbo : u.mFBO = some fbo) (hvp : u.mViewport = some vp) :
    ∃ u' fbo', assignOutputTexture P u = some u' ∧ u'.mFBO = some fbo' ∧
      u'.mOutputTex.length = u.mOutputTex.length ∧
      ∀ (i : Nat) (k : Int) (slot : Option Texture), u.mOutputTex[i]? = some (k, slot) →
        ∃ t, u'.mOutputTex[i]? = some (k, some t) ∧ t.is2D = true ∧
          (slot = none →
            t.textureWidth = vp.width ∧ t.textureHeight = vp.height ∧
            t.internalFormat = u.mOutputInternalFormat ∧
            u.texturesCreated ≤ t.id ∧ t.id < u'.texturesCreated) ∧
          fbo'.getAttachment (GL_COLOR_ATTACHMENT0_EXT + i) = some ⟨t.id, 0⟩ ∧
          (k = (i : Int) →
            fbo'.getAttachment (GL_COLOR_ATTACHMENT0_EXT + k.toNat) = some ⟨t.id, 0⟩) := by
  obtain ⟨outs', fbo', c', hloop, -, hlen, hpt⟩ :=
    assignLoop_slots P u vp hvp u.mOutputTex 0 fbo u.texturesCreated
  obtain ⟨h2d, hf⟩ := assignLoop_result P u _ _ _ _ _ _ _ hloop
  obtain ⟨u2, hcheck⟩ := checkIOMipmappedData_isSome P
    { u with mOutputTex := outs', mFBO := some fbo', texturesCreated := c',
             mMipmapFBO := [], mMipmapViewport := [] } h2d
  have hframe := checkIOMipmappedData_frame P _ _ hcheck
  refine ⟨{ u2 with mbDirtyOutputTextures := false }, fbo', ?_, ?_, ?_, ?_⟩
  · simp only [assignOutputTexture, hfbo, hloop, hcheck]
  · rw [hframe]
  · rw [hframe]; exact hlen
  · intro i k slot hi
    obtain ⟨t, ht, h2, -, hnew⟩ := hpt i k slot hi
    refine ⟨t, by rw [hframe]; exact ht, h2, ?_, ?_⟩
    · intro hnone
      subst hnone
      obtain ⟨e, l1, l2⟩ := hnew rfl
      refine ⟨?_, ?_, ?_, l1, by rw [hframe]; exact l2⟩
      · rw [e]; rfl
      · rw [e]; rfl
      · rw [e]; rfl
    · have hid := outputIds_getElem outs' i k t h2d ht
      have := attachIds_lookup (outputIds outs') 0 fbo i t.id hid
      have hatt : fbo'.getAttachment (GL_COLOR_ATTACHMENT0_EXT + i) = some ⟨t.id, 0⟩ := by
        rw [hf]
        simpa using this
      refine ⟨hatt, ?_⟩
      intro hk
      subst hk
      simpa using hatt

/-- Witness for C5 as amended: a unit with an empty slot and a slot holding a
texture. -/
theorem assignOutputTexture_slots_witness :
    ∃ u' fbo', assignOutputTexture exactPlatform mipmapUnit4 = some u' ∧ u'.mFBO = some fbo' ∧
      u'.mOutputTex.length = mipmapUnit4.mOutputTex.length ∧
      ∀ (i : Nat) (k : Int) (slot : Option Texture),
        mipmapUnit4.mOutputTex[i]? = some (k, slot) →
        ∃ t, u'.mOutputTex[i]? = some (k, some t) ∧ t.is2D = true ∧
          (slot = none →
            t.textureWidth = 4 ∧ t.textureHeight = 4 ∧
            t.internalFormat = mipmapUnit4.mOutputInternalFormat ∧
            mipmapUnit4.texturesCreated ≤ t.id ∧ t.id < u'.texturesCreated) ∧
          fbo'.getAttachment (GL_COLOR_ATTACHMENT0_EXT + i) = some ⟨t.id, 0⟩ ∧
          (k = (i : Int) →
            fbo'.getAttachment (GL_COLOR_ATTACHMENT0_EXT + k.toNat) = some ⟨t.id, 0⟩) :=
  assignOutputTexture_slots exactPlatform mipmapUnit4 ⟨[]⟩ ⟨0, 0, 4, 4⟩ rfl rfl

/-- Counterexample to C5 as stated: with the keys `3` and `7` in the output map
the two textures are the colour attachments `0` and `1` of the render target,
and nothing is attached at `3` or at `7`.  And on a unit without a viewport an
empty slot makes `assignOutputTexture` dereference the null viewport. -/
theorem assignOutputTexture_slots_counterexample :
    (∃ u' fbo', assignOutputTexture exactPlatform sparseKeyUnit = some u' ∧
      u'.mFBO = some fbo' ∧
      u'.mOutputTex.map (fun p => (p.1, p.2.map Texture.id)) = [(3, some 10), (7, some 0)] ∧
      fbo'.getAttachment (GL_COLOR_ATTACHMENT0_EXT + 3) = none ∧
      fbo'.getAttachment (GL_COLOR_ATTACHMENT0_EXT + 7) = none ∧
      fbo'.getAttachment (GL_COLOR_ATTACHMENT0_EXT + 0) = some ⟨10, 0⟩ ∧
      fbo'.getAttachment (GL_COLOR_ATTACHMENT0_EXT + 1) = some ⟨0, 0⟩) ∧
    nullSlotUnit.mFBO.isSome = true ∧
    assignOutputTexture exactPlatform { nullSlotUnit with mViewport := none } = none := by
  refine ⟨⟨_, _, rfl, rfl, by decide, by decide, by decide, by decide, by decide⟩,
    by decide, by decide⟩

/-- Claim C6.  Let `s` be a unit initialised by `assignOutputTexture` in mipmap
mode (render target present, at least one output slot), with a valid graphics
state and all outputs of one size `w x h`, and let `N` be its level count.  Then
`render` with a negative level returns the unit unchanged and issues exactly the
passes of the levels `0, ..., N - 1` in this order, `N` draws in all; the pass
of level `i` is one draw pass that binds the viewport and the render target
stored for level `i` in the table (and no other) and, when the unit has a
shader, sets `g_MipmapLevel` to `i` and `g_ViewportWidth`, `g_ViewportHeight` to
the size of that viewport. -/
theorem render_mipmap_levels (P : Platform) (s0 s : UnitInOut) (w h lvl : Int)
    (hinit : assignOutputTexture P s0 = some s)
    (hfbo : s0.mFBO.isSome = true) (hmip : UnitInOut.mbMipmappedIO s0 = true)
    (hne : s0.mOutputTex ≠ []) (hall : AllOutputs w h s.mOutputTex)
    (hs : s.sStateValid = true) (hlvl : lvl < 0) :
    ∃ tr, render s lvl = some (s, tr) ∧
      tr = (List.range s.mNumLevels.toNat).flatMap (levelPass s) ∧
      drawCount tr = s.mNumLevels.toNat ∧
      s.mIOMipmapViewport.length = s.mNumLevels.toNat ∧
      s.mIOMipmapFBO.length = s.mNumLevels.toNat ∧
      ∀ i : Nat, i < s.mNumLevels.toNat →
        ∃ vp fbo, s.mIOMipmapViewport[i]? = some vp ∧ s.mIOMipmapFBO[i]? = some fbo ∧
          vp = levelViewport w h i ∧ fbo = levelFBO (outputIds s.mOutputTex) i ∧
          levelPass s i = drawPass s fbo vp i ∧
          drawCount (levelPass s i) = 1 ∧
          (∀ vp', GLCommand.applyViewport vp' ∈ levelPass s i ↔ vp' = vp) ∧
          (∀ fbo', GLCommand.applyFBO fbo' ∈ levelPass s i ↔ fbo' = fbo) ∧
          (∀ sh v, GLCommand.shaderSet sh "g_MipmapLevel" v ∈ levelPass s i ↔
            (s.mShader = some sh ∧ v = i)) ∧
          (∀ sh v, GLCommand.shaderSet sh "g_ViewportWidth" v ∈ levelPass s i ↔
            (s.mShader = some sh ∧ v = vp.width)) ∧
          (∀ sh v, GLCommand.shaderSet sh "g_ViewportHeight" v ∈ levelPass s i ↔
            (s.mShader = some sh ∧ v = vp.height)) := by
  obtain ⟨fbo, hfbo'⟩ := Option.isSome_iff_exists.1 hfbo
  obtain ⟨outs', fbo', c', u2, hloop, hcheck, hs2⟩ :=
    assignOutputTexture_unfold P s0 s fbo hfbo' hinit
  have hlen := assignLoop_length P s0 _ _ _ _ _ _ _ hloop
  have hframe := checkIOMipmappedData_frame P _ _ hcheck
  have houts : s.mOutputTex = outs' := by rw [hs2, hframe]
  rw [houts] at hall
  have hne' : outs' ≠ [] := by
    intro e
    rw [e] at hlen
    exact hne (List.length_eq_zero.1 hlen.symm)
  have huni := checkIOMipmappedData_uniform P
    { s0 with mOutputTex := outs', mFBO := some fbo', texturesCreated := c',
              mMipmapFBO := [], mMipmapViewport := [] } w h rfl hmip hne' hall
  rw [huni] at hcheck
  injection hcheck with hcheck
  subst hcheck
  subst hs2
  simp only at hs houts ⊢
  have hv : ∀ i : Nat, i < (1 + P.floorLog2 (max w h)).toNat →
      ((List.range (1 + P.floorLog2 (max w h)).toNat).map (levelViewport w h))[i]? =
        some (levelViewport w h i) := by
    intro i hi
    simp [List.getElem?_map, List.getElem?_range hi]
  have hf : ∀ i : Nat, i < (1 + P.floorLog2 (max w h)).toNat →
      ((List.range (1 + P.floorLog2 (max w h)).toNat).map (levelFBO (outputIds outs')))[i]? =
        some (levelFBO (outputIds outs') i) := by
    intro i hi
    simp [List.getElem?_map, List.getElem?_range hi]
  refine ⟨_, render_mipmapped _ lvl hlvl hmip hs (by simp) (by simp), rfl, ?_, by simp,
    by simp, ?_⟩
  · exact drawCount_levels _ _ (by simp) (by simp)
  · intro i hi
    have hp : levelPass
        { s0 with
          mOutputTex := outs', mFBO := some fbo', texturesCreated := c',
          mMipmapFBO := [], mMipmapViewport := [],
          mNumLevels := 1 + P.floorLog2 (max w h),
          mIOMipmapViewport :=
            (List.range (1 + P.floorLog2 (max w h)).toNat).map (levelViewport w h),
          mIOMipmapFBO :=
            (List.range (1 + P.floorLog2 (max w h)).toNat).map (levelFBO (outputIds outs')),
          mbDirtyOutputTextures := false } i =
        drawPass
          { s0 with
            mOutputTex := outs', mFBO := some fbo', texturesCreated := c',
            mMipmapFBO := [], mMipmapViewport := [],
            mNumLevels := 1 + P.floorLog2 (max w h),
            mIOMipmapViewport :=
              (List.range (1 + P.floorLog2 (max w h)).toNat).map (levelViewport w h),
            mIOMipmapFBO :=
              (List.range (1 + P.floorLog2 (max w h)).toNat).map (levelFBO (outputIds outs')),
            mbDirtyOutputTextures := false }
          (levelFBO (outputIds outs') i) (levelViewport w h i) i := by
      simp only [levelPass, hv i hi, hf i hi]
    refine ⟨_, _, hv i hi, hf i hi, rfl, rfl, hp, ?_, ?_⟩
    · rw [hp]; exact drawCount_drawPass _ _ _ _
    · rw [hp]
      have hle := P.floorLog2_le (max w h)
      exact drawPass_targets_exact _ _ _ _ (f32_natCast_small i (by omega))
        (f32_levelDim w i) (f32_levelDim h i)

/-- Witness for C6: a unit with two `4 x 4` outputs and three levels. -/
theorem render_mipmap_levels_witness :
    ∃ tr, render mipmapReady4 (-1) = some (mipmapReady4, tr) ∧
      tr = (List.range mipmapReady4.mNumLevels.toNat).flatMap (levelPass mipmapReady4) ∧
      drawCount tr = mipmapReady4.mNumLevels.toNat ∧
      mipmapReady4.mIOMipmapViewport.length = mipmapReady4.mNumLevels.toNat ∧
      mipmapReady4.mIOMipmapFBO.length = mipmapReady4.mNumLevels.toNat ∧
      ∀ i : Nat, i < mipmapReady4.mNumLevels.toNat →
        ∃ vp fbo, mipmapReady4.mIOMipmapViewport[i]? = some vp ∧
          mipmapReady4.mIOMipmapFBO[i]? = some fbo ∧
          vp = levelViewport 4 4 i ∧ fbo = levelFBO (outputIds mipmapReady4.mOutputTex) i ∧
          levelPass mipmapReady4 i = drawPass mipmapReady4 fbo vp i ∧
          drawCount (levelPass mipmapReady4 i) = 1 ∧
          (∀ vp', GLCommand.applyViewport vp' ∈ levelPass mipmapReady4 i ↔ vp' = vp) ∧
          (∀ fbo', GLCommand.applyFBO fbo' ∈ levelPass mipmapReady4 i ↔ fbo' = fbo) ∧
          (∀ sh v, GLCommand.shaderSet sh "g_MipmapLevel" v ∈ levelPass mipmapReady4 i ↔
            (mipmapReady4.mShader = some sh ∧ v = i)) ∧
          (∀ sh v, GLCommand.shaderSet sh "g_ViewportWidth" v ∈ levelPass mipmapReady4 i ↔
            (mipmapReady4.mShader = some sh ∧ v = vp.width)) ∧
          (∀ sh v, GLCommand.shaderSet sh "g_ViewportHeight" v ∈ levelPass mipmapReady4 i ↔
            (mipmapReady4.mShader = some sh ∧ v = vp.height)) :=
  render_mipmap_levels exactPlatform mipmapUnit4 mipmapReady4 4 4 (-1) (by decide) (by decide)
    (by decide) (by decide)
    (by
      intro p hp
      simp [mipmapReady4, mipmapUnit4, sampleUnit] at hp
      rcases hp with rfl | rfl <;> exact ⟨_, rfl, rfl, rfl, rfl⟩)
    (by decide) (by decide)

/-- Claim C7.  Whenever `render` returns, for any level argument, the unit is
what it was before the call: same viewport, same render target, same output
textures, mipmap tables, level count and dirty flag. -/
theorem render_restores (u u' : UnitInOut) (lvl : Int) (tr : List GLCommand)
    (h : render u lvl = some (u', tr)) :
    u' = u ∧ u'.mViewport = u.mViewport ∧ u'.mFBO = u.mFBO ∧
      u'.mOutputTex = u.mOutputTex ∧ u'.mIOMipmapViewport = u.mIOMipmapViewport ∧
      u'.mIOMipmapFBO = u.mIOMipmapFBO ∧ u'.mNumLevels = u.mNumLevels ∧
      u'.mbDirtyOutputTextures = u.mbDirtyOutputTextures := by
  have := render_frame_core u u' lvl tr h
  subst this
  exact ⟨rfl, rfl, rfl, rfl, rfl, rfl, rfl, rfl⟩

/-- Witness for C7: `render` with level `-1` on a unit in mipmap mode with three
levels, where viewport and render target are substituted three times. -/
theorem render_restores_witness :
    ∃ u' tr, render mipmapReady4 (-1) = some (u', tr) ∧ drawCount tr = 3 ∧
      (u' = mipmapReady4 ∧ u'.mViewport = mipmapReady4.mViewport ∧
        u'.mFBO = mipmapReady4.mFBO ∧
        u'.mOutputTex = mipmapReady4.mOutputTex ∧
        u'.mIOMipmapViewport = mipmapReady4.mIOMipmapViewport ∧
        u'.mIOMipmapFBO = mipmapReady4.mIOMipmapFBO ∧
        u'.mNumLevels = mipmapReady4.mNumLevels ∧
        u'.mbDirtyOutputTextures = mipmapReady4.mbDirtyOutputTextures) :=
  ⟨mipmapReady4, (List.range 3).flatMap (levelPass mipmapReady4), by decide, by decide,
    render_restores mipmapReady4 mipmapReady4 (-1)
      ((List.range 3).flatMap (levelPass mipmapReady4)) (by decide)⟩

/-- Claim C8, as amended.  Let `s` be a unit initialised by `assignOutputTexture`
in mipmap mode (render target present, at least one output slot, all outputs of
one size), with a valid graphics state and a viewport, and let `L` be a level
below its level count.  Then `render(L)` returns the unit unchanged and performs
exactly one draw pass; the pass binds the viewport and the render target that
the unit holds itself, and no other: the sub-pass table is not consulted, and
for `L >= 1` the render target stored for level `L` is not bound. -/
theorem render_level_own_target (P : Platform) (s0 s : UnitInOut) (w h : Int) (vp : Viewport)
    (L : Nat) (hinit : assignOutputTexture P s0 = some s)
    (hfbo : s0.mFBO.isSome = true) (hmip : UnitInOut.mbMipmappedIO s0 = true)
    (hne : s0.mOutputTex ≠ []) (hall : AllOutputs w h s.mOutputTex)
    (hs : s.sStateValid = true) (hvp : s.mViewport = some vp) (hL : (L : Int) < s.mNumLevels) :
    ∃ fbo tr, s.mFBO = some fbo ∧ render s L = some (s, tr) ∧
      tr = drawPass s fbo vp L ∧ drawCount tr = 1 ∧
      (∀ vp', GLCommand.applyViewport vp' ∈ tr ↔ vp' = vp) ∧
      (∀ fbo', GLCommand.applyFBO fbo' ∈ tr ↔ fbo' = fbo) ∧
      (1 ≤ L → ∃ f, s.mIOMipmapFBO[L]? = some f ∧ GLCommand.applyFBO f ∉ tr) := by
  obtain ⟨fbo0, hfbo0⟩ := Option.isSome_iff_exists.1 hfbo
  obtain ⟨outs', fbo', c', u2, hloop, hcheck, hs2⟩ :=
    assignOutputTexture_unfold P s0 s fbo0 hfbo0 hinit
  have hlen := assignLoop_length P s0 _ _ _ _ _ _ _ hloop
  obtain ⟨h2d, hf⟩ := assignLoop_result P s0 _ _ _ _ _ _ _ hloop
  have hframe := checkIOMipmappedData_frame P _ _ hcheck
  have houts : s.mOutputTex = outs' := by rw [hs2, hframe]
  rw [houts] at hall
  have hne' : outs' ≠ [] := by
    intro e
    rw [e] at hlen
    exact hne (List.length_eq_zero.1 hlen.symm)
  have huni := checkIOMipmappedData_uniform P
    { s0 with mOutputTex := outs', mFBO := some fbo', texturesCreated := c',
              mMipmapFBO := [], mMipmapViewport := [] } w h rfl hmip hne' hall
  rw [huni] at hcheck
  injection hcheck with hcheck
  have hsf : s.mFBO = some fbo' := by rw [hs2, ← hcheck]
  have hsn : s.mNumLevels = 1 + P.floorLog2 (max w h) := by rw [hs2, ← hcheck]
  have hst : s.mIOMipmapFBO =
      (List.range (1 + P.floorLog2 (max w h)).toNat).map (levelFBO (outputIds outs')) := by
    rw [hs2, ← hcheck]
  have h0 : ¬ ((L : Int) < 0) := by omega
  obtain ⟨t1, t2, -, -, -⟩ := drawPass_targets s fbo' vp L
  refine ⟨fbo', _, hsf, ?_, rfl, drawCount_drawPass _ fbo' vp L, t1, t2, ?_⟩
  · unfold render
    rw [if_pos (by omega : (L : Int) ≥ 0), doRender_valid s fbo' vp L hs hsf hvp, if_neg h0]
  · intro h1
    have hLt : L < (1 + P.floorLog2 (max w h)).toNat := by omega
    refine ⟨levelFBO (outputIds outs') L, ?_, ?_⟩
    · rw [hst]
      simp [List.getElem?_map, List.getElem?_range hLt]
    · rw [t2, hf]
      exact levelFBO_ne_attachIds _ L fbo0 (outputIds_ne_nil outs' h2d hne') h1

/-- Witness for C8 as amended: `render(1)` on a unit with three levels. -/
theorem render_level_own_target_witness :
    ∃ fbo tr, mipmapReady4.mFBO = some fbo ∧ render mipmapReady4 (1 : Nat) = some (mipmapReady4, tr) ∧
      tr = drawPass mipmapReady4 fbo ⟨0, 0, 4, 4⟩ (1 : Nat) ∧ drawCount tr = 1 ∧
      (∀ vp', GLCommand.applyViewport vp' ∈ tr ↔ vp' = ⟨0, 0, 4, 4⟩) ∧
      (∀ fbo', GLCommand.applyFBO fbo' ∈ tr ↔ fbo' = fbo) ∧
      (1 ≤ 1 → ∃ f, mipmapReady4.mIOMipmapFBO[1]? = some f ∧ GLCommand.applyFBO f ∉ tr) :=
  render_level_own_target exactPlatform mipmapUnit4 mipmapReady4 4 4 ⟨0, 0, 4, 4⟩ 1 (by decide)
    (by decide) (by decide) (by decide)
    (by
      intro p hp
      simp [mipmapReady4, mipmapUnit4, sampleUnit] at hp
      rcases hp with rfl | rfl <;> exact ⟨_, rfl, rfl, rfl, rfl⟩)
    (by decide) rfl (by decide)

/-- Counterexample to C8 as stated: on a unit initialised in mipmap mode with
three levels, `render(1)` binds neither the viewport nor the render target of
level 1 of the table; it binds the `4 x 4` viewport of the unit and the render
target of the unit.  And on such a unit without a valid graphics state, or
without a viewport, `render(1)` performs no draw at all. -/
theorem render_level_counterexample :
    assignOutputTexture exactPlatform mipmapUnit4 = some mipmapReady4 ∧
      (1 : Int) < mipmapReady4.mNumLevels ∧
      mipmapReady4.mIOMipmapViewport[1]? = some ⟨0, 0, 2, 2⟩ ∧
      mipmapReady4.mIOMipmapFBO[1]? = some (levelFBO [0, 11] 1) ∧
      (∃ tr, render mipmapReady4 1 = some (mipmapReady4, tr) ∧
        drawCount tr = 1 ∧
        GLCommand.applyViewport ⟨0, 0, 2, 2⟩ ∉ tr ∧
        GLCommand.applyFBO (levelFBO [0, 11] 1) ∉ tr ∧
        GLCommand.applyViewport ⟨0, 0, 4, 4⟩ ∈ tr ∧
        GLCommand.applyFBO (levelFBO [0, 11] 0) ∈ tr) ∧
      assignOutputTexture exactPlatform { mipmapUnit4 with sStateValid := false } =
        some { mipmapReady4 with sStateValid := false } ∧
      render { mipmapReady4 with sStateValid := false } 1 =
        some ({ mipmapReady4 with sStateValid := false }, []) ∧
      assignOutputTexture exactPlatform { mipmapReady4 with mViewport := none } =
        some { mipmapReady4 with mViewport := none } ∧
      render { mipmapReady4 with mViewport := none } 1 =
        some ({ mipmapReady4 with mViewport := none }, []) := by
  refine ⟨by decide, by decide, by decide, by decide,
    ⟨_, rfl, by decide, by decide, by decide, by decide, by decide⟩,
    by decide, by decide, by decide, by decide⟩

/-- Claim C9.  For a unit with mipmap mode disabled and a valid graphics state,
render target and viewport, `render` with a negative level returns the unit
unchanged and issues exactly one draw pass, which binds the viewport and the
render target of the unit, and no other, and reports mip level 0 to the shader
(when the unit has one). -/
theorem render_plain (u : UnitInOut) (fbo : FrameBufferObject) (vp : Viewport) (level : Int)
    (hmip : UnitInOut.mbMipmappedIO u = false) (hs : u.sStateValid = true)
    (hfbo : u.mFBO = some fbo) (hvp : u.mViewport = some vp) (hlevel : level < 0) :
    ∃ tr, render u level = some (u, tr) ∧ tr = drawPass u fbo vp 0 ∧
      drawCount tr = 1 ∧
      (∀ vp', GLCommand.applyViewport vp' ∈ tr ↔ vp' = vp) ∧
      (∀ fbo', GLCommand.applyFBO fbo' ∈ tr ↔ fbo' = fbo) ∧
      (∀ sh v, GLCommand.shaderSet sh "g_MipmapLevel" v ∈ tr ↔
        (u.mShader = some sh ∧ v = 0)) := by
  obtain ⟨t1, t2, t3, -, -⟩ := drawPass_targets u fbo vp 0
  have e0 : f32 0 = 0 := by decide
  rw [e0] at t3
  refine ⟨_, ?_, rfl, drawCount_drawPass u fbo vp 0, t1, t2, t3⟩
  unfold render
  rw [if_neg (by omega : ¬ level ≥ 0), hmip, doRender_valid u fbo vp level hs hfbo hvp,
    if_pos hlevel]
  simp

/-- Witness for C9: a unit with a `128 x 128` viewport, level `-1`. -/
theorem render_plain_witness :
    ∃ tr, render nullSlotUnit (-1) = some (nullSlotUnit, tr) ∧
      tr = drawPass nullSlotUnit ⟨[]⟩ ⟨0, 0, 128, 128⟩ 0 ∧
      drawCount tr = 1 ∧
      (∀ vp', GLCommand.applyViewport vp' ∈ tr ↔ vp' = ⟨0, 0, 128, 128⟩) ∧
      (∀ fbo', GLCommand.applyFBO fbo' ∈ tr ↔ fbo' = ⟨[]⟩) ∧
      (∀ sh v, GLCommand.shaderSet sh "g_MipmapLevel" v ∈ tr ↔
        (nullSlotUnit.mShader = some sh ∧ v = 0)) :=
  render_plain nullSlotUnit ⟨[]⟩ ⟨0, 0, 128, 128⟩ (-1) rfl rfl rfl rfl (by decide)

/-- Claim C10.  When the graphics state, the render target or the viewport is
not valid, `doRender` issues no command at all, and `render` with a level
`>= 0` or with mipmap mode disabled returns the unit unchanged with no
command issued. -/
theorem doRender_skipped (u : UnitInOut) (level : Int)
    (h : u.sStateValid = false ∨ u.mFBO = none ∨ u.mViewport = none) :
    doRender u level = [] ∧
      (0 ≤ level ∨ UnitInOut.mbMipmappedIO u = false → render u level = some (u, [])) := by
  have hd := doRender_invalid u level h
  refine ⟨hd, ?_⟩
  intro hc
  unfold render
  by_cases h0 : level ≥ 0
  · rw [if_pos h0, hd]
  · have hm : UnitInOut.mbMipmappedIO u = false := by
      rcases hc with hc | hc
      · omega
      · exact hc
    rw [if_neg h0, hm, hd]
    simp

/-- Witness for C10: a unit without viewport. -/
theorem doRender_skipped_witness :
    doRender { sampleUnit with mViewport := none } 0 = [] ∧
      (0 ≤ (0 : Int) ∨ UnitInOut.mbMipmappedIO { sampleUnit with mViewport := none } = false →
        render { sampleUnit with mViewport := none } 0 =
          some ({ sampleUnit with mViewport := none }, [])) :=
  doRender_skipped { sampleUnit with mViewport := none } 0 (Or.inr (Or.inr rfl))

/-! ## Lemmas: the other operations of the in/out unit -/

theorem assignOutputTexture_dirty (P : Platform) (u s : UnitInOut)
    (h : assignOutputTexture P u = some s) : s.mbDirtyOutputTextures = false := by
  cases hfbo : u.mFBO with
  | none =>
    simp only [assignOutputTexture, hfbo, Option.some.injEq] at h
    subst h; rfl
  | some fbo =>
    obtain ⟨_, _, _, u2, -, -, hs⟩ := assignOutputTexture_unfold P u s fbo hfbo h
    rw [hs]

theorem render_dirty (u u' : UnitInOut) (level : Int) (tr : List GLCommand)
    (h : render u level = some (u', tr)) :
    u'.mbDirtyOutputTextures = u.mbDirtyOutputTextures := by
  rw [render_frame_core u u' level tr h]

theorem noticeChangeViewport_frame (u s : UnitInOut) (h : noticeChangeViewport u = some s) :
    s = { u with mOutputTex := s.mOutputTex } := by
  unfold noticeChangeViewport at h
  split at h
  · exact absurd h (by simp)
  · injection h with h; subst h; rfl

theorem noticeChangeViewport_dirty (u s : UnitInOut) (h : noticeChangeViewport u = some s) :
    s.mbDirtyOutputTextures = u.mbDirtyOutputTextures := by
  rw [noticeChangeViewport_frame u s h]

theorem setMipmappedIO_false (U : UnitBase) (u : UnitInOut) :
    setMipmappedIO U u false =
      { u with mbDirtyOutputTextures := false, mbMipmappedIO := false } := by
  simp [ setMipmappedIO]

theorem setMipmappedIO_true (U : UnitBase) (u : UnitInOut) :
    setMipmappedIO U u true =
      U.enableMipmapGeneration { u with mbDirtyOutputTextures := true, mbMipmappedIO := true } := by
  simp [ setMipmappedIO]

theorem setMipmappedIO_true_fields (U : UnitBase) (u : UnitInOut) :
    ( setMipmappedIO U u true).mFBO = u.mFBO ∧
      UnitInOut.mbMipmappedIO ( setMipmappedIO U u true) = true ∧
      ( setMipmappedIO U u true).mIOMipmapViewport = u.mIOMipmapViewport ∧
      ( setMipmappedIO U u true).mIOMipmapFBO = u.mIOMipmapFBO := by
  rw [setMipmappedIO_true]
  obtain ⟨h1, -, h3, h4⟩ := U.enable_own
    { u with mbDirtyOutputTextures := true, mbMipmappedIO := true }
  exact ⟨U.enable_mFBO _, h1, h3, h4⟩

theorem construct_mFBO (U : UnitBase) (base : UnitInOut) :
    (construct U base).mFBO = some ⟨[]⟩ := by
  simp [construct, setMipmappedIO]

theorem copyConstruct_fields (U : UnitBase) (unit : UnitInOut)
    (hmip : UnitInOut.mbMipmappedIO unit = true) :
    UnitInOut.mbMipmappedIO (copyConstruct U unit) = true ∧
      (copyConstruct U unit).mNumLevels = unit.mNumLevels ∧
      (copyConstruct U unit).mIOMipmapViewport = [] ∧
      (copyConstruct U unit).mIOMipmapFBO = [] := by
  unfold copyConstruct
  rw [hmip]
  obtain ⟨-, h2, h3, h4⟩ := setMipmappedIO_true_fields U
    { unit with mIOMipmapViewport := [], mIOMipmapFBO := [] }
  exact ⟨h2, rfl, h3, h4⟩

theorem assignOutputTexture_of_all2D (P : Platform) (u : UnitInOut) (fbo : FrameBufferObject)
    (hfbo : u.mFBO = some fbo) (h2d : All2D u.mOutputTex) :
    assignOutputTexture P u =
      (checkIOMipmappedData P { u with
          mFBO := some (attachIds (outputIds u.mOutputTex) 0 fbo),
          mMipmapFBO := [], mMipmapViewport := [] }).map
        fun v => { v with mbDirtyOutputTextures := false } := by
  unfold assignOutputTexture
  rw [hfbo]
  simp only [assignLoop_all2D P u u.mOutputTex 0 fbo u.texturesCreated h2d]
  cases checkIOMipmappedData P { u with
      mFBO := some (attachIds (outputIds u.mOutputTex) 0 fbo),
      mMipmapFBO := [], mMipmapViewport := [] } <;> rfl

theorem checkIOMipmappedData_partial (P : Platform) (u : UnitInOut) (k : Int)
    (first : Texture) (rest : TextureMap)
    (hfbo : u.mFBO.isSome = true) (hmip : UnitInOut.mbMipmappedIO u = true)
    (hout : u.mOutputTex = (k, some first) :: rest) (h2d : All2D u.mOutputTex)
    (hdim : 1 ≤ max first.textureWidth first.textureHeight)
    (hmis : SomeOtherSize first.textureWidth first.textureHeight u.mOutputTex) :
    checkIOMipmappedData P u = some { u with
      mNumLevels := 1 + P.floorLog2 (max first.textureWidth first.textureHeight)
      mIOMipmapViewport := [levelViewport first.textureWidth first.textureHeight 0]
      mIOMipmapFBO := [] } := by
  obtain ⟨fbo, vp, outs, ins, fmt, dirty, mip, nl, vps, fbos, gvps, gfbos, sh, bl, off, st, tc⟩ := u
  simp only at hfbo hmip hout h2d hmis
  subst hmip hout
  have hpos := P.floorLog2_nonneg _ hdim
  obtain ⟨n, hn⟩ :
      ∃ n, (1 + P.floorLog2 (max first.textureWidth first.textureHeight)).toNat = n + 1 :=
    ⟨(P.floorLog2 (max first.textureWidth first.textureHeight)).toNat, by omega⟩
  simp [checkIOMipmappedData, hfbo, hn, buildLevels,
    attachLevel_mismatch _ _ 0 _ h2d hmis, levelViewport]

theorem assignOutputTexture_mismatch (P : Platform) (u : UnitInOut) (fbo : FrameBufferObject)
    (hfbo : u.mFBO = some fbo) (hmip : UnitInOut.mbMipmappedIO u = true)
    (hout : u.mOutputTex = mismatchUnit.mOutputTex) :
    ∃ s, assignOutputTexture P u = some s ∧ UnitInOut.mbMipmappedIO s = true ∧
      s.mIOMipmapViewport.length = 1 ∧ s.mIOMipmapFBO = [] ∧ 0 < s.mNumLevels := by
  have h2d : All2D u.mOutputTex := by
    rw [hout]
    intro p hp
    simp [mismatchUnit, sampleUnit] at hp
    rcases hp with rfl | rfl <;> exact ⟨_, rfl, rfl⟩
  have hmis : SomeOtherSize 256 256 u.mOutputTex := by
    rw [hout]
    exact ⟨(1, some (sampleTexture 11 128 128)), by simp [mismatchUnit, sampleUnit],
      sampleTexture 11 128 128, rfl, Or.inl (by decide)⟩
  have hpos := P.floorLog2_nonneg (max 256 256) (by decide)
  have hc := checkIOMipmappedData_partial P
    { u with mFBO := some (attachIds (outputIds u.mOutputTex) 0 fbo),
             mMipmapFBO := [], mMipmapViewport := [] }
    0 (sampleTexture 10 256 256) [(1, some (sampleTexture 11 128 128))] rfl hmip
    (by rw [hout]; rfl) h2d (by decide) hmis
  rw [assignOutputTexture_of_all2D P u fbo hfbo h2d, hc]
  refine ⟨_, rfl, hmip, rfl, rfl, ?_⟩
  simp only [sampleTexture]
  omega

theorem assignOutputTexture_uniform256 (P : Platform) (u : UnitInOut) (fbo : FrameBufferObject)
    (hfbo : u.mFBO = some fbo) (hmip : UnitInOut.mbMipmappedIO u = true)
    (hout : u.mOutputTex = mipmapUnit256.mOutputTex) :
    ∃ s, assignOutputTexture P u = some s ∧ UnitInOut.mbMipmappedIO s = true ∧
      (s.mIOMipmapViewport.length : Int) = s.mNumLevels ∧
      (s.mIOMipmapFBO.length : Int) = s.mNumLevels ∧ 0 < s.mNumLevels := by
  have hall : AllOutputs 256 256 u.mOutputTex := by
    rw [hout]
    intro p hp
    simp [mipmapUnit256, sampleUnit] at hp
    rcases hp with rfl | rfl <;> exact ⟨_, rfl, rfl, rfl, rfl⟩
  have h2d : All2D u.mOutputTex := fun p hp => by
    obtain ⟨t, h1, h2, -, -⟩ := hall p hp
    exact ⟨t, h1, h2⟩
  have hne : u.mOutputTex ≠ [] := by rw [hout]; simp [mipmapUnit256, sampleUnit]
  have hpos := P.floorLog2_nonneg (max 256 256) (by decide)
  have hc := checkIOMipmappedData_uniform P
    { u with mFBO := some (attachIds (outputIds u.mOutputTex) 0 fbo),
             mMipmapFBO := [], mMipmapViewport := [] }
    256 256 rfl hmip hne hall
  rw [assignOutputTexture_of_all2D P u fbo hfbo h2d, hc]
  refine ⟨_, rfl, hmip, ?_, ?_, ?_⟩
  · simp only [Option.map_some', List.length_map, List.length_range]
    omega
  · simp only [Option.map_some', List.length_map, List.length_range]
    omega
  · simp only
    omega

theorem render_none_of_missing (s : UnitInOut) (level : Int) (hlevel : level < 0)
    (hmip : UnitInOut.mbMipmappedIO s = true) (hnum : 0 < s.mNumLevels)
    (hmiss : s.mIOMipmapViewport[0]? = none ∨ s.mIOMipmapFBO[0]? = none) :
    render s level = none := by
  obtain ⟨n, hn⟩ : ∃ n, s.mNumLevels.toNat = n + 1 := ⟨s.mNumLevels.toNat - 1, by omega⟩
  unfold render
  rw [if_neg (by omega : ¬ level ≥ 0), if_pos hmip, hn]
  simp only [renderLevels]
  rcases hmiss with h | h
  · rw [h]
  · rw [h]
    cases s.mIOMipmapViewport[0]? <;> rfl

/-! ## Lemmas: the repeat node -/

theorem ChangeInputsCallback_calls_fresh (texture : TextureRef) (unit K N : Nat)
    (hN : 1 ≤ N) (hN32 : N < 2 ^ 32) :
    ∀ t : Nat, (ChangeInputsCallback.new texture unit K N).calls t =
      some ({ ChangeInputsCallback.new texture unit K N with _iteration := t % N },
        (List.range t).map (expectedBindings texture unit K N))
  | 0 => by simp [ChangeInputsCallback.calls, ChangeInputsCallback.new]
  | t + 1 => by
    have ih := ChangeInputsCallback_calls_fresh texture unit K N hN hN32 t
    have hlt : t % N < N := Nat.mod_lt _ (by omega)
    have h32 : (t % N + 1) % 2 ^ 32 = t % N + 1 := Nat.mod_eq_of_lt (by omega)
    have hstep : (t % N + 1) % N = (t + 1) % N := by
      rw [Nat.add_mod t 1 N, Nat.add_mod (t % N) 1 N, Nat.mod_mod]
    have hN0 : N ≠ 0 := by omega
    simp only [ChangeInputsCallback.new] at ih
    simp only [ChangeInputsCallback.calls, ChangeInputsCallback.new, ih,
      ChangeInputsCallback.call, hN0, if_false, h32, hstep, List.range_succ, List.map_append,
      List.map_cons, List.map_nil, expectedBindings, ge_iff_le]

theorem maskChildren_eq (S : Scene) :
    ∀ cs : List Nat, maskChildren S cs =
      (cs.filter S.isUnit).map fun c => TraverseEvent.setNodeMask c 0x0
  | [] => rfl
  | c :: rest => by
    cases h : S.isUnit c <;> simp [maskChildren, h, maskChildren_eq S rest]

theorem visitChildren_eq (S : Scene) :
    ∀ cs : List Nat, visitChildren S cs =
      (cs.filter S.isUnit).flatMap fun c =>
        [TraverseEvent.setNodeMask c 0xFFFFFFFF, TraverseEvent.accept c]
  | [] => rfl
  | c :: rest => by
    cases h : S.isUnit c <;> simp [visitChildren, h, visitChildren_eq S rest]

theorem repeatIterations_eq :
    ∀ n : Nat, repeatIterations n =
      (List.replicate n [TraverseEvent.cleanCullTraversed, TraverseEvent.baseTraverse]).flatten
  | 0 => rfl
  | n + 1 => by simp [repeatIterations, repeatIterations_eq n, List.replicate_succ]

theorem repeatIterations_count :
    ∀ n : Nat, (repeatIterations n).count TraverseEvent.baseTraverse = n ∧
      (repeatIterations n).count TraverseEvent.cleanCullTraversed = n ∧
      (∀ c, (repeatIterations n).count (TraverseEvent.accept c) = 0) ∧
      (∀ c m, (repeatIterations n).count (TraverseEvent.setNodeMask c m) = 0)
  | 0 => by simp [repeatIterations]
  | n + 1 => by
    obtain ⟨h1, h2, h3, h4⟩ := repeatIterations_count n
    simp [repeatIterations, List.count_cons, h1, h2, h3, h4]

theorem maskChildren_count (S : Scene) :
    ∀ cs : List Nat, (maskChildren S cs).count TraverseEvent.baseTraverse = 0 ∧
      (maskChildren S cs).count TraverseEvent.cleanCullTraversed = 0 ∧
      (∀ c, (maskChildren S cs).count (TraverseEvent.accept c) = 0)
  | [] => by simp [maskChildren]
  | c :: rest => by
    obtain ⟨h1, h2, h3⟩ := maskChildren_count S rest
    cases h : S.isUnit c <;> simp [maskChildren, h, List.count_cons, h1, h2, h3]

theorem visitChildren_count (S : Scene) :
    ∀ cs : List Nat, (visitChildren S cs).count TraverseEvent.baseTraverse = 0 ∧
      (visitChildren S cs).count TraverseEvent.cleanCullTraversed = 0 ∧
      (∀ c, (visitChildren S cs).count (TraverseEvent.accept c) =
        (cs.filter S.isUnit).count c)
  | [] => by simp [visitChildren]
  | c :: rest => by
    obtain ⟨h1, h2, h3⟩ := visitChildren_count S rest
    cases h : S.isUnit c
    · simp [visitChildren, h, h1, h2, h3]
    · refine ⟨by simp [visitChildren, h, List.count_cons, h1], 
        by simp [visitChildren, h, List.count_cons, h2], ?_⟩
      intro d
      simp only [visitChildren, h, if_true, List.append_assoc, List.cons_append,
        List.nil_append, List.count_cons, h3 d, List.filter_cons_of_pos]
      by_cases hd : c = d <;> simp [hd]

theorem traverse_cull (S : Scene) (r : UnitBypassRepeat) (last : Nat)
    (hl : r._lastNode = some last) (hn : 1 < r._numIterations) :
    r.traverse S VisitorType.CULL_VISITOR =
      maskChildren S (S.children last) ++ repeatIterations r._numIterations
        ++ visitChildren S (S.children last) := by
  have h1 : ¬ r._numIterations ≤ 1 := by omega
  simp [UnitBypassRepeat.traverse, hl, h1]

theorem installedFrom_append (unit : Nat) :
    ∀ (a b : List InitEvent) (old : Option ChangeInputsCallback),
      installedFrom unit old (a ++ b) = installedFrom unit (installedFrom unit old a) b
  | [], _, _ => rfl
  | e :: rest, b, old => by
    cases e <;> simp [installedFrom, installedFrom_append unit rest b]

theorem parentLoop_installed (S : Scene) (r : UnitBypassRepeat) (last unit : Nat) :
    ∀ (ps : List Nat) (index : Nat) (old : Option ChangeInputsCallback),
      installedFrom unit old (parentLoop S r last unit ps index) =
        if r.self ∈ ps then
          some (ChangeInputsCallback.new ⟨last, r._lastNodeOutputIndex⟩
            (index + ((beforeLast r.self ps).map (inputSlots S)).sum) 1 r._numIterations)
        else old
  | [], _, _ => by simp [parentLoop, installedFrom]
  | p :: rest, index, old => by
    have ih := parentLoop_installed S r last unit rest (index + inputSlots S p)
    by_cases hp : p = r.self
    · subst hp
      by_cases hr : r.self ∈ rest
      · simp [parentLoop, installedFrom, ih, hr, beforeLast, Nat.add_assoc]
      · simp [parentLoop, installedFrom, ih, hr, beforeLast]
    · have hp' : ¬ r.self = p := fun e => hp e.symm
      by_cases hr : r.self ∈ rest
      · simp [parentLoop, hp, hp', installedFrom, ih, hr, beforeLast, Nat.add_assoc]
      · simp [parentLoop, hp, hp', installedFrom, ih, hr, beforeLast]

theorem parentLoop_other (S : Scene) (r : UnitBypassRepeat) (last unit other : Nat)
    (hne : unit ≠ other) :
    ∀ (ps : List Nat) (index : Nat) (old : Option ChangeInputsCallback),
      installedFrom other old (parentLoop S r last unit ps index) = old
  | [], _, _ => by simp [parentLoop, installedFrom]
  | p :: rest, index, old => by
    have ih := parentLoop_other S r last unit other hne rest (index + inputSlots S p)
    by_cases hp : p = r.self
    · subst hp
      simp [parentLoop, installedFrom, hne, ih]
    · simp [parentLoop, hp, installedFrom, ih]

theorem childLoop_installed (S : Scene) (r : UnitBypassRepeat) (last unit : Nat) :
    ∀ (cs : List Nat) (old : Option ChangeInputsCallback),
      installedFrom unit old (childLoop S r last cs) =
        if unit ∈ cs ∧ S.isUnit unit = true ∧ r.self ∈ S.parents unit then
          some (expectedCallback S r last (S.parents unit))
        else old
  | [], _ => by simp [childLoop, installedFrom]
  | c :: rest, old => by
    have ih := childLoop_installed S r last unit rest
    simp only [childLoop, installedFrom_append, ih]
    by_cases hc : c = unit
    · subst hc
      cases hu : S.isUnit c
      · simp [installedFrom]
      · by_cases hp : r.self ∈ S.parents c
        · simp [parentLoop_installed, hp, expectedCallback]
        · simp [parentLoop_installed, hp]
    · have hc' : ¬ unit = c := fun e => hc e.symm
      cases hu : S.isUnit c
      · simp [installedFrom, hc']
      · simp [parentLoop_other S r last c unit hc, hc']

theorem init_repeat (S : Scene) (r : UnitBypassRepeat) (last : Nat)
    (hp : (S.parents r.self).length ≤ 1) (hl : r._lastNode = some last)
    (hn : 1 < r._numIterations) :
    r.init S =
      if S.outputCount last > (r._lastNodeOutputIndex + 1) % 2 ^ 32 then
        ({ r with _lastNodeOutputIndex := 0 },
          [InitEvent.unitInit, InitEvent.notifyWarn (S.outputCount last) r._lastNodeOutputIndex]
            ++ childLoop S { r with _lastNodeOutputIndex := 0 } last (S.children r.self))
      else (r, [InitEvent.unitInit] ++ childLoop S r last (S.children r.self)) := by
  have h1 : ¬ (S.parents r.self).length > 1 := by omega
  have h2 : ¬ r._numIterations ≤ 1 := by omega
  simp only [UnitBypassRepeat.init, h1, if_false, hl, h2, or_self]
  simp

theorem init_installed (S : Scene) (r : UnitBypassRepeat) (last : Nat)
    (hp : (S.parents r.self).length ≤ 1) (hl : r._lastNode = some last)
    (hn : 1 < r._numIterations) (unit : Nat) :
    (r.init S).1.self = r.self ∧ (r.init S).1._numIterations = r._numIterations ∧
    installed unit (r.init S).2 =
      if unit ∈ S.children r.self ∧ S.isUnit unit = true ∧ r.self ∈ S.parents unit then
        some (expectedCallback S (r.init S).1 last (S.parents unit))
      else none := by
  rw [init_repeat S r last hp hl hn]
  by_cases hw : S.outputCount last > (r._lastNodeOutputIndex + 1) % 2 ^ 32
  · rw [if_pos hw]
    refine ⟨rfl, rfl, ?_⟩
    simp only [installed, List.cons_append, List.nil_append, installedFrom]
    exact childLoop_installed S _ last unit _ none
  · rw [if_neg hw]
    refine ⟨rfl, rfl, ?_⟩
    simp only [installed, List.cons_append, List.nil_append, installedFrom]
    exact childLoop_installed S _ last unit _ none

/-! ## The claims, continued -/

/-- Claim C11.  A fresh `ChangeInputsCallback` with period `N >= 1` (an
`unsigned`, so `N < 2^32`) and change iteration `K` can be called any number of
times; its `i`-th call (`i = 0, 1, 2, ...`) binds the target texture to the
designated slot exactly when `K <= i mod N`, and binds nothing otherwise.  So
in the `g`-th group of `N` calls the calls `0..K-1` keep the original binding
and the calls `K..N-1` use the target texture; after `t` calls the counter is
`t mod N`, hence `0` after every full group. -/
theorem ChangeInputsCallback_schedule (texture : TextureRef) (unit K N : Nat)
    (hN : 1 ≤ N) (hN32 : N < 2 ^ 32) (t : Nat) :
    ∃ cb log, (ChangeInputsCallback.new texture unit K N).calls t = some (cb, log) ∧
      cb._iteration = t % N ∧ (N ∣ t → cb._iteration = 0) ∧ log.length = t ∧
      (∀ i, i < t →
        log[i]? = some (if K ≤ i % N then [(⟨unit, texture⟩ : TextureBinding)] else [])) ∧
      (∀ g j, j < N → g * N + j < t →
        log[g * N + j]? = some (if K ≤ j then [(⟨unit, texture⟩ : TextureBinding)] else [])) := by
  have hpt : ∀ i, i < t →
      ((List.range t).map (expectedBindings texture unit K N))[i]? =
        some (if K ≤ i % N then [(⟨unit, texture⟩ : TextureBinding)] else []) := by
    intro i hi
    simp [List.getElem?_map, List.getElem?_range hi, expectedBindings]
  refine ⟨_, _, ChangeInputsCallback_calls_fresh texture unit K N hN hN32 t, rfl, ?_,
    by simp, hpt, ?_⟩
  · intro hd
    exact Nat.mod_eq_zero_of_dvd hd
  · intro g j hj hlt
    rw [hpt _ hlt]
    have : (g * N + j) % N = j := by
      rw [Nat.add_comm, Nat.add_mul_mod_self_right, Nat.mod_eq_of_lt hj]
    rw [this]

/-- Witness for C11: `N = 3`, `K = 1`, seven calls: call 0 keeps the original
binding, calls 1 and 2 use the target texture, and so on in each group. -/
theorem ChangeInputsCallback_schedule_witness :
    ∃ cb log, (ChangeInputsCallback.new ⟨3, 0⟩ 2 1 3).calls 7 = some (cb, log) ∧
      cb._iteration = 7 % 3 ∧ (3 ∣ 7 → cb._iteration = 0) ∧ log.length = 7 ∧
      (∀ i, i < 7 →
        log[i]? = some (if 1 ≤ i % 3 then [(⟨2, ⟨3, 0⟩⟩ : TextureBinding)] else [])) ∧
      (∀ g j, j < 3 → g * 3 + j < 7 →
        log[g * 3 + j]? = some (if 1 ≤ j then [(⟨2, ⟨3, 0⟩⟩ : TextureBinding)] else [])) :=
  ChangeInputsCallback_schedule ⟨3, 0⟩ 2 1 3 (by decide) (by decide) 7

/-- Claim C12.  A repeat node with iteration count `<= 1`, or without boundary
unit, is a plain pass-through: for every kind of visitor `traverse` is the
traversal of a plain bypass node (one base traversal, no run of the clean
visitor, no node mask set), and `init` changes no member of the node and sets
no begin-draw callback on any unit. -/
theorem repeat_passthrough (S : Scene) (r : UnitBypassRepeat) (vt : VisitorType)
    (h : r._numIterations ≤ 1 ∨ r._lastNode = none) :
    r.traverse S vt = bypassTraverse ∧
      (r.traverse S vt).count TraverseEvent.baseTraverse = 1 ∧
      TraverseEvent.cleanCullTraversed ∉ r.traverse S vt ∧
      (∀ c m, TraverseEvent.setNodeMask c m ∉ r.traverse S vt) ∧
      (r.init S).1 = r ∧
      (∀ u cb, InitEvent.setBeginDrawCallback u cb ∉ (r.init S).2) ∧
      (∀ u, installed u (r.init S).2 = none) := by
  have ht : r.traverse S vt = [TraverseEvent.baseTraverse] := by
    have hc : vt ≠ VisitorType.CULL_VISITOR ∨ r._lastNode = none ∨ r._numIterations ≤ 1 := by
      rcases h with h | h
      · exact Or.inr (Or.inr h)
      · exact Or.inr (Or.inl h)
    unfold UnitBypassRepeat.traverse
    rw [if_pos hc]
  have hc : r._lastNode = none ∨ r._numIterations ≤ 1 := h.symm
  have hi : r.init S = (r, [InitEvent.notifyFatal (S.parents r.self).length]) ∨
      r.init S = (r, [InitEvent.unitInit]) := by
    unfold UnitBypassRepeat.init
    by_cases hp : (S.parents r.self).length > 1
    · left; rw [if_pos hp]
    · right; rw [if_neg hp, if_pos hc]
  refine ⟨ht, by rw [ht]; decide, by rw [ht]; simp, by rw [ht]; simp, ?_, ?_, ?_⟩
  · rcases hi with hi | hi <;> rw [hi]
  · rcases hi with hi | hi <;> rw [hi] <;> simp
  · rcases hi with hi | hi <;> rw [hi] <;> simp [installed, installedFrom]

/-- Witness for C12: the node with one iteration under a cull visitor. -/
theorem repeat_passthrough_witness :
    singleRepeat.traverse sampleScene VisitorType.CULL_VISITOR = bypassTraverse ∧
      (singleRepeat.traverse sampleScene VisitorType.CULL_VISITOR).count
        TraverseEvent.baseTraverse = 1 ∧
      TraverseEvent.cleanCullTraversed ∉
        singleRepeat.traverse sampleScene VisitorType.CULL_VISITOR ∧
      (∀ c m, TraverseEvent.setNodeMask c m ∉
        singleRepeat.traverse sampleScene VisitorType.CULL_VISITOR) ∧
      (singleRepeat.init sampleScene).1 = singleRepeat ∧
      (∀ u cb, InitEvent.setBeginDrawCallback u cb ∉ (singleRepeat.init sampleScene).2) ∧
      (∀ u, installed u (singleRepeat.init sampleScene).2 = none) :=
  repeat_passthrough sampleScene singleRepeat VisitorType.CULL_VISITOR (Or.inl (by decide))

/-- Claim C13.  For a repeat node with boundary unit `last` and iteration count
`n > 1` under a cull visitor, `traverse` performs, in this order: `setNodeMask(0)`
on every unit child of `last`, in child order; `n` times a run of the clean
visitor followed by one base traversal; then, for every unit child of `last` in
child order, `setNodeMask(0xFFFFFFFF)` and `accept`.  The base traversal and the
clean visitor each run exactly `n` times, and a node is visited by `accept` as
often as it occurs among the unit children of `last` (once, when it is listed
once). -/
theorem traverse_repeat (S : Scene) (r : UnitBypassRepeat) (last : Nat)
    (hl : r._lastNode = some last) (hn : 1 < r._numIterations) :
    r.traverse S VisitorType.CULL_VISITOR =
        ((S.children last).filter S.isUnit).map (fun c => TraverseEvent.setNodeMask c 0x0)
        ++ (List.replicate r._numIterations
              [TraverseEvent.cleanCullTraversed, TraverseEvent.baseTraverse]).flatten
        ++ ((S.children last).filter S.isUnit).flatMap (fun c =>
              [TraverseEvent.setNodeMask c 0xFFFFFFFF, TraverseEvent.accept c]) ∧
      (r.traverse S VisitorType.CULL_VISITOR).count TraverseEvent.baseTraverse =
        r._numIterations ∧
      (r.traverse S VisitorType.CULL_VISITOR).count TraverseEvent.cleanCullTraversed =
        r._numIterations ∧
      (∀ c, (r.traverse S VisitorType.CULL_VISITOR).count (TraverseEvent.accept c) =
        ((S.children last).filter S.isUnit).count c) := by
  rw [traverse_cull S r last hl hn]
  obtain ⟨m1, m2, m3⟩ := maskChildren_count S (S.children last)
  obtain ⟨r1, r2, r3, -⟩ := repeatIterations_count r._numIterations
  obtain ⟨v1, v2, v3⟩ := visitChildren_count S (S.children last)
  refine ⟨?_, ?_, ?_, ?_⟩
  · rw [maskChildren_eq, repeatIterations_eq, visitChildren_eq]
  · simp [List.count_append, m1, r1, v1]
  · simp [List.count_append, m2, r2, v2]
  · intro c
    simp [List.count_append, m3, r3, v3]

/-- Witness for C13: three iterations, boundary unit `3` with the unit children
`10` and `11`. -/
theorem traverse_repeat_witness :
    sampleRepeat.traverse sampleScene VisitorType.CULL_VISITOR =
        ((sampleScene.children 3).filter sampleScene.isUnit).map
          (fun c => TraverseEvent.setNodeMask c 0x0)
        ++ (List.replicate sampleRepeat._numIterations
              [TraverseEvent.cleanCullTraversed, TraverseEvent.baseTraverse]).flatten
        ++ ((sampleScene.children 3).filter sampleScene.isUnit).flatMap (fun c =>
              [TraverseEvent.setNodeMask c 0xFFFFFFFF, TraverseEvent.accept c]) ∧
      (sampleRepeat.traverse sampleScene VisitorType.CULL_VISITOR).count
        TraverseEvent.baseTraverse = sampleRepeat._numIterations ∧
      (sampleRepeat.traverse sampleScene VisitorType.CULL_VISITOR).count
        TraverseEvent.cleanCullTraversed = sampleRepeat._numIterations ∧
      (∀ c, (sampleRepeat.traverse sampleScene VisitorType.CULL_VISITOR).count
          (TraverseEvent.accept c) =
        ((sampleScene.children 3).filter sampleScene.isUnit).count c) :=
  traverse_repeat sampleScene sampleRepeat 3 rfl (by decide)

/-- Claim C14, as amended.  For a repeat node with more than one parent, `init`
only reports the error: it changes no member of the node and sets no begin-draw
callback on any unit.  `traverse` does not look at the number of parents: under
a cull visitor, with a boundary unit and `n > 1` iterations, it still masks the
unit children of the boundary unit, runs the `n` iterations and unmasks and
visits the children. -/
theorem init_many_parents (S : Scene) (r : UnitBypassRepeat)
    (hp : 1 < (S.parents r.self).length) :
    r.init S = (r, [InitEvent.notifyFatal (S.parents r.self).length]) ∧
      (∀ u cb, InitEvent.setBeginDrawCallback u cb ∉ (r.init S).2) ∧
      (∀ u, installed u (r.init S).2 = none) ∧
      (∀ last, r._lastNode = some last → 1 < r._numIterations →
        r.traverse S VisitorType.CULL_VISITOR =
            maskChildren S (S.children last) ++ repeatIterations r._numIterations
              ++ visitChildren S (S.children last) ∧
          (r.traverse S VisitorType.CULL_VISITOR).count TraverseEvent.cleanCullTraversed =
            r._numIterations ∧
          (r.traverse S VisitorType.CULL_VISITOR).count TraverseEvent.baseTraverse =
            r._numIterations) := by
  have hi : r.init S = (r, [InitEvent.notifyFatal (S.parents r.self).length]) := by
    unfold UnitBypassRepeat.init
    rw [if_pos hp]
  refine ⟨hi, by rw [hi]; simp, by rw [hi]; simp [installed, installedFrom], ?_⟩
  intro last hl hn
  rw [traverse_cull S r last hl hn]
  obtain ⟨m1, m2, -⟩ := maskChildren_count S (S.children last)
  obtain ⟨r1, r2, -, -⟩ := repeatIterations_count r._numIterations
  obtain ⟨v1, v2, -⟩ := visitChildren_count S (S.children last)
  exact ⟨rfl, by simp [List.count_append, m2, r2, v2], by simp [List.count_append, m1, r1, v1]⟩

/-- Witness for C14 as amended: the node `0` with the two parents `1` and `2`. -/
theorem init_many_parents_witness :
    sampleRepeat.init twoParentScene =
        (sampleRepeat, [InitEvent.notifyFatal (twoParentScene.parents sampleRepeat.self).length]) ∧
      (∀ u cb, InitEvent.setBeginDrawCallback u cb ∉ (sampleRepeat.init twoParentScene).2) ∧
      (∀ u, installed u (sampleRepeat.init twoParentScene).2 = none) ∧
      (∀ last, sampleRepeat._lastNode = some last → 1 < sampleRepeat._numIterations →
        sampleRepeat.traverse twoParentScene VisitorType.CULL_VISITOR =
            maskChildren twoParentScene (twoParentScene.children last)
              ++ repeatIterations sampleRepeat._numIterations
              ++ visitChildren twoParentScene (twoParentScene.children last) ∧
          (sampleRepeat.traverse twoParentScene VisitorType.CULL_VISITOR).count
            TraverseEvent.cleanCullTraversed = sampleRepeat._numIterations ∧
          (sampleRepeat.traverse twoParentScene VisitorType.CULL_VISITOR).count
            TraverseEvent.baseTraverse = sampleRepeat._numIterations) :=
  init_many_parents twoParentScene sampleRepeat (by decide)

/-- Counterexample to C14 as stated: the node `0` has two parents, and its cull
traversal is not aborted: it sets node masks and runs three iterations. -/
theorem traverse_many_parents_counterexample :
    (twoParentScene.parents sampleRepeat.self).length = 2 ∧
      sampleRepeat.traverse twoParentScene VisitorType.CULL_VISITOR =
        [TraverseEvent.setNodeMask 10 0x0, TraverseEvent.setNodeMask 11 0x0,
         TraverseEvent.cleanCullTraversed, TraverseEvent.baseTraverse,
         TraverseEvent.cleanCullTraversed, TraverseEvent.baseTraverse,
         TraverseEvent.cleanCullTraversed, TraverseEvent.baseTraverse,
         TraverseEvent.setNodeMask 10 0xFFFFFFFF, TraverseEvent.accept 10,
         TraverseEvent.setNodeMask 11 0xFFFFFFFF, TraverseEvent.accept 11] ∧
      (sampleRepeat.traverse twoParentScene VisitorType.CULL_VISITOR).count
        TraverseEvent.cleanCullTraversed = 3 ∧
      TraverseEvent.setNodeMask 10 0x0 ∈
        sampleRepeat.traverse twoParentScene VisitorType.CULL_VISITOR := by
  refine ⟨by decide, by decide, by decide, by decide⟩

/-- Claim C15, what the code does instead.  `setMipmappedIO(false)` stores its
argument in the dirty flag: on every unit, also on one whose flag is set, the
flag is clear afterwards although no output texture was reallocated (the unit
is otherwise unchanged, but for the mipmapped in/out flag). -/
theorem setMipmappedIO_false_clears_dirty (U : UnitBase) (u : UnitInOut) :
    ( setMipmappedIO U { u with mbDirtyOutputTextures := true } false).mbDirtyOutputTextures
        = false ∧
      ( setMipmappedIO U u false).mbDirtyOutputTextures = false ∧
      ( setMipmappedIO U u false).mOutputTex = u.mOutputTex ∧
      ( setMipmappedIO U u false).texturesCreated = u.texturesCreated := by
  simp [ setMipmappedIO]

/-- Claim C16, what the code does instead.  Two reachable states in which
`render` with a negative level reads a missing table entry.  First: construct a
unit, switch mipmapped in/out on, give it outputs of `256 x 256` and
`128 x 128` and call `assignOutputTexture`; the viewport table then has one
entry, the render-target table none, and the level count is positive.  Second:
construct a unit, switch mipmapped in/out on, give it two outputs of
`256 x 256`, call `assignOutputTexture` and copy-construct a unit from it; the
copy has the level count of the original and empty tables. -/
theorem reachable_missing_entry (P : Platform) (U : UnitBase) :
    (∃ s, Reachable P U s ∧ UnitInOut.mbMipmappedIO s = true ∧
      s.mIOMipmapViewport.length = 1 ∧ s.mIOMipmapFBO = [] ∧ 0 < s.mNumLevels ∧
      render s (-1) = none) ∧
    (∃ s, Reachable P U s ∧ UnitInOut.mbMipmappedIO s = true ∧
      s.mIOMipmapViewport = [] ∧ s.mIOMipmapFBO = [] ∧ 0 < s.mNumLevels ∧
      render s (-1) = none) := by
  have hr1 : Reachable P U ( setMipmappedIO U (construct U sampleUnit) true) :=
    Reachable.setMipmappedIO _ true (Reachable.construct sampleUnit)
  obtain ⟨hf, hm, -, -⟩ := setMipmappedIO_true_fields U (construct U sampleUnit)
  rw [construct_mFBO] at hf
  constructor
  · obtain ⟨s, hs, hmip, hv, hfb, hn⟩ := assignOutputTexture_mismatch P
      { setMipmappedIO U (construct U sampleUnit) true with
        mOutputTex := mismatchUnit.mOutputTex } ⟨[]⟩ hf hm rfl
    refine ⟨s, Reachable.assignOutputTexture _ s (Reachable.setOutputs _ _ hr1) hs, hmip, hv,
      hfb, hn, ?_⟩
    exact render_none_of_missing s (-1) (by decide) hmip hn (Or.inr (by rw [hfb]; rfl))
  · obtain ⟨s, hs, hmip, hv, hfb, hn⟩ := assignOutputTexture_uniform256 P
      { setMipmappedIO U (construct U sampleUnit) true with
        mOutputTex := mipmapUnit256.mOutputTex } ⟨[]⟩ hf hm rfl
    have hrs : Reachable P U s :=
      Reachable.assignOutputTexture _ s (Reachable.setOutputs _ _ hr1) hs
    obtain ⟨c1, c2, c3, c4⟩ := copyConstruct_fields U s hmip
    refine ⟨copyConstruct U s, Reachable.copyConstruct s hrs, c1, c3, c4, by rw [c2]; exact hn,
      ?_⟩
    exact render_none_of_missing _ (-1) (by decide) c1 (by rw [c2]; exact hn)
      (Or.inl (by rw [c3]; rfl))

/-- Claim C17.  For a repeat node with at most one parent, a boundary unit
`last` and iteration count `n > 1`: on every unit child `c` of the node that
lists the node among its parents, the callback in place after `init` is a fresh
`ChangeInputsCallback` with change iteration 1, period `n`, the output texture
of `last` at the output index selected by `init`, and as input slot the sum of
the input slots taken by the parents of `c` that precede the last occurrence of
the node in the parent list of `c` (the output depth of an in/out unit, one for
any other parent).  On a unit that does not list the node as a parent, that is
no unit child of the node, `init` sets no callback. -/
theorem init_callbacks (S : Scene) (r : UnitBypassRepeat) (last : Nat)
    (hp : (S.parents r.self).length ≤ 1) (hl : r._lastNode = some last)
    (hn : 1 < r._numIterations) (c : Nat) :
    (c ∈ S.children r.self → S.isUnit c = true → r.self ∈ S.parents c →
      installed c (r.init S).2 =
        some { _iteration := 0
               _unit := ((beforeLast r.self (S.parents c)).map (inputSlots S)).sum
               _changeOnIteration := 1
               _numIterations := r._numIterations
               _texture := ⟨last, (r.init S).1._lastNodeOutputIndex⟩ }) ∧
    (r.self ∉ S.parents c → installed c (r.init S).2 = none) ∧
    (c ∉ S.children r.self → installed c (r.init S).2 = none) ∧
    (S.isUnit c = false → installed c (r.init S).2 = none) := by
  obtain ⟨hself, hnum, hinst⟩ := init_installed S r last hp hl hn c
  rw [hinst]
  refine ⟨?_, ?_, ?_, ?_⟩
  · intro h1 h2 h3
    rw [if_pos ⟨h1, h2, h3⟩]
    simp [expectedCallback, ChangeInputsCallback.new, hself, hnum]
  · intro h3
    rw [if_neg (fun h => h3 h.2.2)]
  · intro h1
    rw [if_neg (fun h => h1 h.1)]
  · intro h2
    rw [if_neg (fun h => by rw [h2] at h; exact absurd h.2.1 (by simp))]

/-- Witness for C17: unit `4` with the parents `5` (output depth 2), `0`, `6`,
`0` gets input slot `2 + 1 + 1 = 4`; unit `8`, which lists no parent, gets no
callback. -/
theorem init_callbacks_witness :
    installed 4 (sampleRepeat.init sampleScene).2 =
        some { _iteration := 0
               _unit := ((beforeLast sampleRepeat.self (sampleScene.parents 4)).map
                 (inputSlots sampleScene)).sum
               _changeOnIteration := 1
               _numIterations := sampleRepeat._numIterations
               _texture := ⟨3, (sampleRepeat.init sampleScene).1._lastNodeOutputIndex⟩ } ∧
      ((beforeLast sampleRepeat.self (sampleScene.parents 4)).map
        (inputSlots sampleScene)).sum = 4 ∧
      installed 8 (sampleRepeat.init sampleScene).2 = none :=
  ⟨(init_callbacks sampleScene sampleRepeat 3 (by decide) rfl (by decide) 4).1
      (by decide) (by decide) (by decide),
    by decide,
    (init_callbacks sampleScene sampleRepeat 3 (by decide) rfl (by decide) 8).2.1
      (by decide)⟩

/-- Claim C18, as amended.  For a repeat node with at most one parent, iteration
count `n > 1` and a boundary unit `last` that has at least one output, `init`
replaces the output index (an `unsigned` value) by `0` when the boundary unit
has more than `(index + 1) mod 2^32` outputs and keeps it otherwise.  So the
index used after `init` is a valid index of the outputs of the boundary unit
exactly when the configured index was one, or was `2^32 - 1` (where the sum
wraps to `0`); any other index beyond the outputs is kept. -/
theorem init_output_index (S : Scene) (r : UnitBypassRepeat) (last : Nat)
    (hp : (S.parents r.self).length ≤ 1) (hl : r._lastNode = some last)
    (hn : 1 < r._numIterations) (ho : 1 ≤ S.outputCount last)
    (hi : r._lastNodeOutputIndex < 2 ^ 32) :
    (r.init S).1._lastNodeOutputIndex =
        (if S.outputCount last > (r._lastNodeOutputIndex + 1) % 2 ^ 32 then 0
         else r._lastNodeOutputIndex) ∧
      ((r.init S).1._lastNodeOutputIndex < S.outputCount last ↔
        (r._lastNodeOutputIndex < S.outputCount last ∨ r._lastNodeOutputIndex = 2 ^ 32 - 1)) ∧
      (S.outputCount last ≤ r._lastNodeOutputIndex → r._lastNodeOutputIndex ≠ 2 ^ 32 - 1 →
        (r.init S).1._lastNodeOutputIndex = r._lastNodeOutputIndex) := by
  rw [init_repeat S r last hp hl hn]
  by_cases hw : S.outputCount last > (r._lastNodeOutputIndex + 1) % 2 ^ 32
  · rw [if_pos hw, if_pos hw]
    refine ⟨rfl, ?_, ?_⟩
    · simp only
      omega
    · intro h1 h2
      simp only
      omega
  · rw [if_neg hw, if_neg hw]
    refine ⟨rfl, ?_, fun _ _ => rfl⟩
    simp only
    omega

/-- Witness for C18 as amended: index `2` of three outputs is kept. -/
theorem init_output_index_witness :
    (sampleRepeat.init sampleScene).1._lastNodeOutputIndex =
        (if sampleScene.outputCount 3 > (sampleRepeat._lastNodeOutputIndex + 1) % 2 ^ 32 then 0
         else sampleRepeat._lastNodeOutputIndex) ∧
      ((sampleRepeat.init sampleScene).1._lastNodeOutputIndex < sampleScene.outputCount 3 ↔
        (sampleRepeat._lastNodeOutputIndex < sampleScene.outputCount 3 ∨
          sampleRepeat._lastNodeOutputIndex = 2 ^ 32 - 1)) ∧
      (sampleScene.outputCount 3 ≤ sampleRepeat._lastNodeOutputIndex →
        sampleRepeat._lastNodeOutputIndex ≠ 2 ^ 32 - 1 →
        (sampleRepeat.init sampleScene).1._lastNodeOutputIndex =
          sampleRepeat._lastNodeOutputIndex) :=
  init_output_index sampleScene sampleRepeat 3 (by decide) rfl (by decide) (by decide)
    (by decide)

/-- Counterexample to C18 as stated: the node has one parent and three
iterations, its boundary unit has three outputs, the configured index is `5`;
after `init` the index is still `5`, no index of an output, and it is the index
of the texture handed to the callback of unit `7`. -/
theorem init_output_index_counterexample :
    (sampleScene.parents farIndexRepeat.self).length ≤ 1 ∧
      farIndexRepeat._lastNode = some 3 ∧ 1 < farIndexRepeat._numIterations ∧
      1 ≤ sampleScene.outputCount 3 ∧
      (farIndexRepeat.init sampleScene).1._lastNodeOutputIndex = 5 ∧
      ¬ ((farIndexRepeat.init sampleScene).1._lastNodeOutputIndex < sampleScene.outputCount 3) ∧
      installed 7 (farIndexRepeat.init sampleScene).2 =
        some (ChangeInputsCallback.new ⟨3, 5⟩ 0 1 3) := by
  refine ⟨by decide, by decide, by decide, by decide, by decide, by decide, by decide⟩

end OsgPPU
